import Mathlib

/-!
Verification of the protobuf-ts-toolkit repository: the binary status/error
detail codec (packages/grpc-error/src/codec), the error-mapping interceptor
(packages/grpc-error/src/interceptor), and the metadata-resolution
interceptor (packages/metadata/src/metadata-interceptor).

Modelling conventions:
* Byte sequences (Uint8Array) are lists of natural numbers.
* TypeScript strings that travel through the binary codec are modelled by
  their UTF-8 byte sequences (List Nat); strings that are only compared for
  equality (status-code names, metadata keys) are Lean strings.
* The BinaryWriter/BinaryReader primitives of the protobuf-ts runtime are
  modelled by the standard protobuf wire format: base-128 varints and
  length-delimited fields.  A reader that would throw is modelled by Option
  (none = exception).
* Parsing loops of the source (while reader.pos < data.length) are modelled
  by fuel-indexed recursion; the top-level entry points pass fuel
  (length + 1), which is always sufficient because every loop iteration
  consumes at least one byte.
-/

/-- UTF-8 bytes of an ASCII string literal, used to write down the fixed
type URLs and messages from the source as byte lists. -/
def ascii (s : String) : List Nat :=
  s.data.map Char.toNat

/-! ## Wire primitives (model of the protobuf-ts BinaryWriter/BinaryReader) -/
/-- Base-128 little-endian varint encoding, as written by the runtime
BinaryWriter. -/
def encVarint (n : Nat) : List Nat :=
  if n < 128 then [n] else (n % 128 + 128) :: encVarint (n / 128)
decreasing_by simp_wf; omega

/-- Varint decoding, as performed by the runtime BinaryReader; none models
the exception thrown on truncated input. -/
def readVarint : List Nat → Option (Nat × List Nat)
  | [] => none
  | b :: rest =>
    if b < 128 then some (b, rest)
    else
      match readVarint rest with
      | none => none
      | some (v, r) => some (b % 128 + v * 128, r)

/-- Tag bytes for field number f and wire type wt (tag value f*8+wt). -/
def tagBytes (f wt : Nat) : List Nat :=
  encVarint (f * 8 + wt)

/-- A length-delimited payload: varint length followed by the raw bytes. -/
def lenDelim (bs : List Nat) : List Nat :=
  encVarint bs.length ++ bs

/-- A complete length-delimited field (wire type 2): tag then payload.
Models both writer.string and writer.bytes of the source. -/
def ldField (f : Nat) (bs : List Nat) : List Nat :=
  tagBytes f 2 ++ lenDelim bs

/-- A varint field (wire type 0): tag then varint value. -/
def varintField (f : Nat) (n : Nat) : List Nat :=
  tagBytes f 0 ++ encVarint n

/-- reader.tag(): reads a varint and splits it into field number and wire
type; the runtime throws on field number 0 or wire type above 5. -/
def readTag (bs : List Nat) : Option (Nat × Nat × List Nat) :=
  match readVarint bs with
  | none => none
  | some (v, rest) =>
    if v / 8 = 0 ∨ 5 < v % 8 then none else some (v / 8, v % 8, rest)

/-- reader.bytes() / reader.string(): varint length then that many bytes;
none models the exception on truncation. -/
def readLenDelim (bs : List Nat) : Option (List Nat × List Nat) :=
  match readVarint bs with
  | none => none
  | some (n, rest) =>
    if n ≤ rest.length then some (rest.take n, rest.drop n) else none

/-- reader.skip(wireType) for the wire types the runtime can skip without
group support (groups are never produced by this codec). -/
def skipWire (wt : Nat) (bs : List Nat) : Option (List Nat) :=
  if wt = 0 then
    match readVarint bs with
    | none => none
    | some (_, rest) => some rest
  else if wt = 1 then
    if 8 ≤ bs.length then some (bs.drop 8) else none
  else if wt = 2 then
    match readLenDelim bs with
    | none => none
    | some (_, rest) => some rest
  else if wt = 5 then
    if 4 ≤ bs.length then some (bs.drop 4) else none
  else none

/-- Signed 32-bit reinterpretation of a varint value (reader.int32). -/
def toInt32 (v : Nat) : Int :=
  if v % 2 ^ 32 < 2 ^ 31 then ((v % 2 ^ 32 : Nat) : Int)
  else ((v % 2 ^ 32 : Nat) : Int) - 2 ^ 32

/-- Signed 64-bit reinterpretation of a varint value (reader.int64). -/
def toInt64 (v : Nat) : Int :=
  if v % 2 ^ 64 < 2 ^ 63 then ((v % 2 ^ 64 : Nat) : Int)
  else ((v % 2 ^ 64 : Nat) : Int) - 2 ^ 64

/-- The 64-bit two's-complement varint payload written by writer.int32 /
writer.int64 for an integer value. -/
def intVarintPayload (c : Int) : Nat :=
  (c % (2 ^ 64 : Int)).toNat

/-! ## Data model (grpc-error/src/types.ts and codec/status.ts) -/
/-- Discriminated union of error detail records, mirroring the ErrorDetail
union of types.ts.  Strings are UTF-8 byte lists. -/
inductive ErrorDetail where
  | localizedMessage (locale message : List Nat)
  | badRequest (fieldViolations : List (List Nat × List Nat))
  | debugInfo (stackEntries : List (List Nat)) (detail : List Nat)
  | errorInfo (reason domain : List Nat) (metadata : List (List Nat × List Nat))
  | retryInfo (retryDelaySeconds : Int)
  | quotaFailure (violations : List (List Nat × List Nat))
  | preconditionFailure (violations : List (List Nat × List Nat × List Nat))
  | requestInfo (requestId servingData : List Nat)
  | resourceInfo (resourceType resourceName owner description : List Nat)
  | help (links : List (List Nat × List Nat))
  | unknown (typeUrl value : List Nat)
  deriving DecidableEq, Repr

/-- google.protobuf.Any, mirroring the Any interface of codec/status.ts. -/
structure AnyM where
  typeUrl : List Nat
  value : List Nat
  deriving DecidableEq, Repr

/-- google.rpc.Status, mirroring the Status interface of codec/status.ts. -/
structure StatusM where
  code : Int
  message : List Nat
  details : List AnyM
  deriving DecidableEq, Repr

def urlLocalizedMessage : List Nat := ascii "type.googleapis.com/google.rpc.LocalizedMessage"

def urlBadRequest : List Nat := ascii "type.googleapis.com/google.rpc.BadRequest"

def urlDebugInfo : List Nat := ascii "type.googleapis.com/google.rpc.DebugInfo"

def urlErrorInfo : List Nat := ascii "type.googleapis.com/google.rpc.ErrorInfo"

def urlRetryInfo : List Nat := ascii "type.googleapis.com/google.rpc.RetryInfo"

def urlQuotaFailure : List Nat := ascii "type.googleapis.com/google.rpc.QuotaFailure"

def urlPreconditionFailure : List Nat := ascii "type.googleapis.com/google.rpc.PreconditionFailure"

def urlRequestInfo : List Nat := ascii "type.googleapis.com/google.rpc.RequestInfo"

def urlResourceInfo : List Nat := ascii "type.googleapis.com/google.rpc.ResourceInfo"

def urlHelp : List Nat := ascii "type.googleapis.com/google.rpc.Help"

/-- The ten recognized type URLs (TYPE_URLS of codec/decode.ts). -/
def recognizedTypeUrls : List (List Nat) :=
  [urlLocalizedMessage, urlBadRequest, urlDebugInfo, urlErrorInfo, urlRetryInfo,
   urlQuotaFailure, urlPreconditionFailure, urlRequestInfo, urlResourceInfo, urlHelp]

/-! ## Encoders (codec/encode.ts and codec/status.ts)

A JS truthiness test on a string field (if (detail.x)) is modelled by a
non-emptiness test on its UTF-8 bytes. -/
def encodeLocalizedMessage (locale message : List Nat) : List Nat :=
  (if locale ≠ [] then ldField 1 locale else []) ++
  (if message ≠ [] then ldField 2 message else [])

def encodeFieldViolation (field description : List Nat) : List Nat :=
  (if field ≠ [] then ldField 1 field else []) ++
  (if description ≠ [] then ldField 2 description else [])

def encodeBadRequest (fieldViolations : List (List Nat × List Nat)) : List Nat :=
  (fieldViolations.map (fun v => ldField 1 (encodeFieldViolation v.1 v.2))).flatten

def encodeDebugInfo (stackEntries : List (List Nat)) (detail : List Nat) : List Nat :=
  (stackEntries.map (fun entry => ldField 1 entry)).flatten ++
  (if detail ≠ [] then ldField 2 detail else [])

def encodeMapEntry (key value : List Nat) : List Nat :=
  ldField 1 key ++ ldField 2 value

def encodeErrorInfo (reason domain : List Nat) (metadata : List (List Nat × List Nat)) : List Nat :=
  (if reason ≠ [] then ldField 1 reason else []) ++
  (if domain ≠ [] then ldField 2 domain else []) ++
  (metadata.map (fun kv => ldField 3 (encodeMapEntry kv.1 kv.2))).flatten

def encodeRetryInfo (retryDelaySeconds : Int) : List Nat :=
  if 0 < retryDelaySeconds then
    ldField 1 (varintField 1 (intVarintPayload retryDelaySeconds))
  else []

def encodeQuotaViolation (subject description : List Nat) : List Nat :=
  (if subject ≠ [] then ldField 1 subject else []) ++
  (if description ≠ [] then ldField 2 description else [])

def encodeQuotaFailure (violations : List (List Nat × List Nat)) : List Nat :=
  (violations.map (fun v => ldField 1 (encodeQuotaViolation v.1 v.2))).flatten

def encodePreconditionViolation (vtype subject description : List Nat) : List Nat :=
  (if vtype ≠ [] then ldField 1 vtype else []) ++
  (if subject ≠ [] then ldField 2 subject else []) ++
  (if description ≠ [] then ldField 3 description else [])

def encodePreconditionFailure (violations : List (List Nat × List Nat × List Nat)) : List Nat :=
  (violations.map (fun v => ldField 1 (encodePreconditionViolation v.1 v.2.1 v.2.2))).flatten

def encodeRequestInfo (requestId servingData : List Nat) : List Nat :=
  (if requestId ≠ [] then ldField 1 requestId else []) ++
  (if servingData ≠ [] then ldField 2 servingData else [])

def encodeResourceInfo (resourceType resourceName owner description : List Nat) : List Nat :=
  (if resourceType ≠ [] then ldField 1 resourceType else []) ++
  (if resourceName ≠ [] then ldField 2 resourceName else []) ++
  (if owner ≠ [] then ldField 3 owner else []) ++
  (if description ≠ [] then ldField 4 description else [])

def encodeHelpLink (description url : List Nat) : List Nat :=
  (if description ≠ [] then ldField 1 description else []) ++
  (if url ≠ [] then ldField 2 url else [])

def encodeHelp (links : List (List Nat × List Nat)) : List Nat :=
  (links.map (fun l => ldField 1 (encodeHelpLink l.1 l.2))).flatten

/-- encodeErrorDetail of codec/encode.ts.  The source returns an Any for
every member of the closed union (its default arm is unreachable), so the
model is total. -/
def encodeErrorDetail : ErrorDetail → AnyM
  | .localizedMessage locale message => ⟨urlLocalizedMessage, encodeLocalizedMessage locale message⟩
  | .badRequest fvs => ⟨urlBadRequest, encodeBadRequest fvs⟩
  | .debugInfo entries detail => ⟨urlDebugInfo, encodeDebugInfo entries detail⟩
  | .errorInfo reason domain md => ⟨urlErrorInfo, encodeErrorInfo reason domain md⟩
  | .retryInfo n => ⟨urlRetryInfo, encodeRetryInfo n⟩
  | .quotaFailure vs => ⟨urlQuotaFailure, encodeQuotaFailure vs⟩
  | .preconditionFailure vs => ⟨urlPreconditionFailure, encodePreconditionFailure vs⟩
  | .requestInfo rid sd => ⟨urlRequestInfo, encodeRequestInfo rid sd⟩
  | .resourceInfo rt rn ow dsc => ⟨urlResourceInfo, encodeResourceInfo rt rn ow dsc⟩
  | .help links => ⟨urlHelp, encodeHelp links⟩
  | .unknown typeUrl value => ⟨typeUrl, value⟩

/-- encodeAny of codec/status.ts. -/
def encodeAny (a : AnyM) : List Nat :=
  (if a.typeUrl ≠ [] then ldField 1 a.typeUrl else []) ++
  (if 0 < a.value.length then ldField 2 a.value else [])

/-- encodeStatus of codec/status.ts (writer.int32 on the code, string on the
message, repeated length-delimited Any records). -/
def encodeStatus (s : StatusM) : List Nat :=
  (if s.code ≠ 0 then varintField 1 (intVarintPayload s.code) else []) ++
  (if s.message ≠ [] then ldField 2 s.message else []) ++
  (s.details.map (fun d => ldField 3 (encodeAny d))).flatten

/-! ## Decoders (codec/decode.ts and codec/status.ts)

Each while-loop over a BinaryReader becomes a fuel-indexed recursive
function; the wrapper passes fuel length+1, which always suffices because
each iteration consumes at least the tag byte.  The recurring source
pattern (if wireType is LengthDelimited read a string, else skip) is
factored as strOrSkip. -/
/-- Reads a length-delimited payload when the wire type is 2, otherwise
skips the field; returns the payload (if read) and the remaining bytes. -/
def strOrSkip (wt : Nat) (bs : List Nat) : Option (Option (List Nat) × List Nat) :=
  if wt = 2 then
    match readLenDelim bs with
    | none => none
    | some (s, r) => some (some s, r)
  else
    match skipWire wt bs with
    | none => none
    | some r => some (none, r)

def parseLocalizedMessageLoop : Nat → List Nat → List Nat → List Nat → Option ErrorDetail
  | 0, _, _, _ => none
  | fuel + 1, bs, locale, message =>
    if bs = [] then some (.localizedMessage locale message)
    else
      match readTag bs with
      | none => none
      | some (fieldNo, wt, rest) =>
        if fieldNo = 1 then
          match strOrSkip wt rest with
          | none => none
          | some (o, r) => parseLocalizedMessageLoop fuel r (o.getD locale) message
        else if fieldNo = 2 then
          match strOrSkip wt rest with
          | none => none
          | some (o, r) => parseLocalizedMessageLoop fuel r locale (o.getD message)
        else
          match skipWire wt rest with
          | none => none
          | some r => parseLocalizedMessageLoop fuel r locale message

/-- parseLocalizedMessage of codec/decode.ts. -/
def parseLocalizedMessage (bs : List Nat) : Option ErrorDetail :=
  parseLocalizedMessageLoop (bs.length + 1) bs [] []

def parseFieldViolationLoop : Nat → List Nat → List Nat → List Nat → Option (List Nat × List Nat)
  | 0, _, _, _ => none
  | fuel + 1, bs, field, description =>
    if bs = [] then some (field, description)
    else
      match readTag bs with
      | none => none
      | some (fieldNo, wt, rest) =>
        if fieldNo = 1 then
          match strOrSkip wt rest with
          | none => none
          | some (o, r) => parseFieldViolationLoop fuel r (o.getD field) description
        else if fieldNo = 2 then
          match strOrSkip wt rest with
          | none => none
          | some (o, r) => parseFieldViolationLoop fuel r field (o.getD description)
        else
          match skipWire wt rest with
          | none => none
          | some r => parseFieldViolationLoop fuel r field description

/-- parseFieldViolation of codec/decode.ts. -/
def parseFieldViolation (bs : List Nat) : Option (List Nat × List Nat) :=
  parseFieldViolationLoop (bs.length + 1) bs [] []

def parseBadRequestLoop : Nat → List Nat → List (List Nat × List Nat) → Option ErrorDetail
  | 0, _, _ => none
  | fuel + 1, bs, acc =>
    if bs = [] then some (.badRequest acc)
    else
      match readTag bs with
      | none => none
      | some (fieldNo, wt, rest) =>
        if fieldNo = 1 ∧ wt = 2 then
          match readLenDelim rest with
          | none => none
          | some (vbytes, r) =>
            match parseFieldViolation vbytes with
            | none => none
            | some fv => parseBadRequestLoop fuel r (acc ++ [fv])
        else
          match skipWire wt rest with
          | none => none
          | some r => parseBadRequestLoop fuel r acc

/-- parseBadRequest of codec/decode.ts. -/
def parseBadRequest (bs : List Nat) : Option ErrorDetail :=
  parseBadRequestLoop (bs.length + 1) bs []

def parseDebugInfoLoop : Nat → List Nat → List (List Nat) → List Nat → Option ErrorDetail
  | 0, _, _, _ => none
  | fuel + 1, bs, stackEntries, detail =>
    if bs = [] then some (.debugInfo stackEntries detail)
    else
      match readTag bs with
      | none => none
      | some (fieldNo, wt, rest) =>
        if fieldNo = 1 then
          match strOrSkip wt rest with
          | none => none
          | some (some s, r) => parseDebugInfoLoop fuel r (stackEntries ++ [s]) detail
          | some (none, r) => parseDebugInfoLoop fuel r stackEntries detail
        else if fieldNo = 2 then
          match strOrSkip wt rest with
          | none => none
          | some (o, r) => parseDebugInfoLoop fuel r stackEntries (o.getD detail)
        else
          match skipWire wt rest with
          | none => none
          | some r => parseDebugInfoLoop fuel r stackEntries detail

/-- parseDebugInfo of codec/decode.ts. -/
def parseDebugInfo (bs : List Nat) : Option ErrorDetail :=
  parseDebugInfoLoop (bs.length + 1) bs [] []

def parseMapEntryLoop : Nat → List Nat → List Nat → List Nat → Option (List Nat × List Nat)
  | 0, _, _, _ => none
  | fuel + 1, bs, key, value =>
    if bs = [] then some (key, value)
    else
      match readTag bs with
      | none => none
      | some (fieldNo, wt, rest) =>
        if fieldNo = 1 then
          match strOrSkip wt rest with
          | none => none
          | some (o, r) => parseMapEntryLoop fuel r (o.getD key) value
        else if fieldNo = 2 then
          match strOrSkip wt rest with
          | none => none
          | some (o, r) => parseMapEntryLoop fuel r key (o.getD value)
        else
          match skipWire wt rest with
          | none => none
          | some r => parseMapEntryLoop fuel r key value

/-- parseMapEntry of codec/decode.ts. -/
def parseMapEntry (bs : List Nat) : Option (List Nat × List Nat) :=
  parseMapEntryLoop (bs.length + 1) bs [] []

/-- The JS assignment metadata[key] = value on an insertion-ordered object:
an existing key keeps its position and gets the new value, a new key is
appended. -/
def insertMeta (md : List (List Nat × List Nat)) (key value : List Nat) :
    List (List Nat × List Nat) :=
  if md.any (fun kv => kv.1 = key) then
    md.map (fun kv => if kv.1 = key then (key, value) else kv)
  else
    md ++ [(key, value)]

def parseErrorInfoLoop : Nat → List Nat → List Nat → List Nat →
    List (List Nat × List Nat) → Option ErrorDetail
  | 0, _, _, _, _ => none
  | fuel + 1, bs, reason, domain, metadata =>
    if bs = [] then some (.errorInfo reason domain metadata)
    else
      match readTag bs with
      | none => none
      | some (fieldNo, wt, rest) =>
        if fieldNo = 1 then
          match strOrSkip wt rest with
          | none => none
          | some (o, r) => parseErrorInfoLoop fuel r (o.getD reason) domain metadata
        else if fieldNo = 2 then
          match strOrSkip wt rest with
          | none => none
          | some (o, r) => parseErrorInfoLoop fuel r reason (o.getD domain) metadata
        else if fieldNo = 3 then
          if wt = 2 then
            match readLenDelim rest with
            | none => none
            | some (ebytes, r) =>
              match parseMapEntry ebytes with
              | none => none
              | some kv => parseErrorInfoLoop fuel r reason domain (insertMeta metadata kv.1 kv.2)
          else
            match skipWire wt rest with
            | none => none
            | some r => parseErrorInfoLoop fuel r reason domain metadata
        else
          match skipWire wt rest with
          | none => none
          | some r => parseErrorInfoLoop fuel r reason domain metadata

/-- parseErrorInfo of codec/decode.ts. -/
def parseErrorInfo (bs : List Nat) : Option ErrorDetail :=
  parseErrorInfoLoop (bs.length + 1) bs [] [] []

def parseDurationLoop : Nat → List Nat → Int → Option Int
  | 0, _, _ => none
  | fuel + 1, bs, acc =>
    if bs = [] then some acc
    else
      match readTag bs with
      | none => none
      | some (fieldNo, wt, rest) =>
        if fieldNo = 1 ∧ wt = 0 then
          match readVarint rest with
          | none => none
          | some (v, r) => parseDurationLoop fuel r (toInt64 v)
        else
          match skipWire wt rest with
          | none => none
          | some r => parseDurationLoop fuel r acc

def parseRetryInfoLoop : Nat → List Nat → Int → Option ErrorDetail
  | 0, _, _ => none
  | fuel + 1, bs, retryDelaySeconds =>
    if bs = [] then some (.retryInfo retryDelaySeconds)
    else
      match readTag bs with
      | none => none
      | some (fieldNo, wt, rest) =>
        if fieldNo = 1 ∧ wt = 2 then
          match readLenDelim rest with
          | none => none
          | some (dbytes, r) =>
            match parseDurationLoop (dbytes.length + 1) dbytes retryDelaySeconds with
            | none => none
            | some v => parseRetryInfoLoop fuel r v
        else
          match skipWire wt rest with
          | none => none
          | some r => parseRetryInfoLoop fuel r retryDelaySeconds

/-- parseRetryInfo of codec/decode.ts (the Duration sub-message loop is
parseDurationLoop). -/
def parseRetryInfo (bs : List Nat) : Option ErrorDetail :=
  parseRetryInfoLoop (bs.length + 1) bs 0

def parseQuotaViolationLoop : Nat → List Nat → List Nat → List Nat → Option (List Nat × List Nat)
  | 0, _, _, _ => none
  | fuel + 1, bs, subject, description =>
    if bs = [] then some (subject, description)
    else
      match readTag bs with
      | none => none
      | some (fieldNo, wt, rest) =>
        if fieldNo = 1 then
          match strOrSkip wt rest with
          | none => none
          | some (o, r) => parseQuotaViolationLoop fuel r (o.getD subject) description
        else if fieldNo = 2 then
          match strOrSkip wt rest with
          | none => none
          | some (o, r) => parseQuotaViolationLoop fuel r subject (o.getD description)
        else
          match skipWire wt rest with
          | none => none
          | some r => parseQuotaViolationLoop fuel r subject description

/-- parseQuotaViolation of codec/decode.ts. -/
def parseQuotaViolation (bs : List Nat) : Option (List Nat × List Nat) :=
  parseQuotaViolationLoop (bs.length + 1) bs [] []

def parseQuotaFailureLoop : Nat → List Nat → List (List Nat × List Nat) → Option ErrorDetail
  | 0, _, _ => none
  | fuel + 1, bs, acc =>
    if bs = [] then some (.quotaFailure acc)
    else
      match readTag bs with
      | none => none
      | some (fieldNo, wt, rest) =>
        if fieldNo = 1 ∧ wt = 2 then
          match readLenDelim rest with
          | none => none
          | some (vbytes, r) =>
            match parseQuotaViolation vbytes with
            | none => none
            | some v => parseQuotaFailureLoop fuel r (acc ++ [v])
        else
          match skipWire wt rest with
          | none => none
          | some r => parseQuotaFailureLoop fuel r acc

/-- parseQuotaFailure of codec/decode.ts. -/
def parseQuotaFailure (bs : List Nat) : Option ErrorDetail :=
  parseQuotaFailureLoop (bs.length + 1) bs []

def parsePreconditionViolationLoop : Nat → List Nat → List Nat → List Nat → List Nat →
    Option (List Nat × List Nat × List Nat)
  | 0, _, _, _, _ => none
  | fuel + 1, bs, vtype, subject, description =>
    if bs = [] then some (vtype, subject, description)
    else
      match readTag bs with
      | none => none
      | some (fieldNo, wt, rest) =>
        if fieldNo = 1 then
          match strOrSkip wt rest with
          | none => none
          | some (o, r) => parsePreconditionViolationLoop fuel r (o.getD vtype) subject description
        else if fieldNo = 2 then
          match strOrSkip wt rest with
          | none => none
          | some (o, r) => parsePreconditionViolationLoop fuel r vtype (o.getD subject) description
        else if fieldNo = 3 then
          match strOrSkip wt rest with
          | none => none
          | some (o, r) => parsePreconditionViolationLoop fuel r vtype subject (o.getD description)
        else
          match skipWire wt rest with
          | none => none
          | some r => parsePreconditionViolationLoop fuel r vtype subject description

/-- parsePreconditionViolation of codec/decode.ts. -/
def parsePreconditionViolation (bs : List Nat) : Option (List Nat × List Nat × List Nat) :=
  parsePreconditionViolationLoop (bs.length + 1) bs [] [] []

def parsePreconditionFailureLoop : Nat → List Nat → List (List Nat × List Nat × List Nat) →
    Option ErrorDetail
  | 0, _, _ => none
  | fuel + 1, bs, acc =>
    if bs = [] then some (.preconditionFailure acc)
    else
      match readTag bs with
      | none => none
      | some (fieldNo, wt, rest) =>
        if fieldNo = 1 ∧ wt = 2 then
          match readLenDelim rest with
          | none => none
          | some (vbytes, r) =>
            match parsePreconditionViolation vbytes with
            | none => none
            | some v => parsePreconditionFailureLoop fuel r (acc ++ [v])
        else
          match skipWire wt rest with
          | none => none
          | some r => parsePreconditionFailureLoop fuel r acc

/-- parsePreconditionFailure of codec/decode.ts. -/
def parsePreconditionFailure (bs : List Nat) : Option ErrorDetail :=
  parsePreconditionFailureLoop (bs.length + 1) bs []

def parseRequestInfoLoop : Nat → List Nat → List Nat → List Nat → Option ErrorDetail
  | 0, _, _, _ => none
  | fuel + 1, bs, requestId, servingData =>
    if bs = [] then some (.requestInfo requestId servingData)
    else
      match readTag bs with
      | none => none
      | some (fieldNo, wt, rest) =>
        if fieldNo = 1 then
          match strOrSkip wt rest with
          | none => none
          | some (o, r) => parseRequestInfoLoop fuel r (o.getD requestId) servingData
        else if fieldNo = 2 then
          match strOrSkip wt rest with
          | none => none
          | some (o, r) => parseRequestInfoLoop fuel r requestId (o.getD servingData)
        else
          match skipWire wt rest with
          | none => none
          | some r => parseRequestInfoLoop fuel r requestId servingData

/-- parseRequestInfo of codec/decode.ts. -/
def parseRequestInfo (bs : List Nat) : Option ErrorDetail :=
  parseRequestInfoLoop (bs.length + 1) bs [] []

def parseResourceInfoLoop : Nat → List Nat → List Nat → List Nat → List Nat → List Nat →
    Option ErrorDetail
  | 0, _, _, _, _, _ => none
  | fuel + 1, bs, resourceType, resourceName, owner, description =>
    if bs = [] then some (.resourceInfo resourceType resourceName owner description)
    else
      match readTag bs with
      | none => none
      | some (fieldNo, wt, rest) =>
        if fieldNo = 1 then
          match strOrSkip wt rest with
          | none => none
          | some (o, r) => parseResourceInfoLoop fuel r (o.getD resourceType) resourceName owner description
        else if fieldNo = 2 then
          match strOrSkip wt rest with
          | none => none
          | some (o, r) => parseResourceInfoLoop fuel r resourceType (o.getD resourceName) owner description
        else if fieldNo = 3 then
          match strOrSkip wt rest with
          | none => none
          | some (o, r) => parseResourceInfoLoop fuel r resourceType resourceName (o.getD owner) description
        else if fieldNo = 4 then
          match strOrSkip wt rest with
          | none => none
          | some (o, r) => parseResourceInfoLoop fuel r resourceType resourceName owner (o.getD description)
        else
          match skipWire wt rest with
          | none => none
          | some r => parseResourceInfoLoop fuel r resourceType resourceName owner description

/-- parseResourceInfo of codec/decode.ts. -/
def parseResourceInfo (bs : List Nat) : Option ErrorDetail :=
  parseResourceInfoLoop (bs.length + 1) bs [] [] [] []

def parseHelpLinkLoop : Nat → List Nat → List Nat → List Nat → Option (List Nat × List Nat)
  | 0, _, _, _ => none
  | fuel + 1, bs, description, url =>
    if bs = [] then some (description, url)
    else
      match readTag bs with
      | none => none
      | some (fieldNo, wt, rest) =>
        if fieldNo = 1 then
          match strOrSkip wt rest with
          | none => none
          | some (o, r) => parseHelpLinkLoop fuel r (o.getD description) url
        else if fieldNo = 2 then
          match strOrSkip wt rest with
          | none => none
          | some (o, r) => parseHelpLinkLoop fuel r description (o.getD url)
        else
          match skipWire wt rest with
          | none => none
          | some r => parseHelpLinkLoop fuel r description url

/-- parseHelpLink of codec/decode.ts. -/
def parseHelpLink (bs : List Nat) : Option (List Nat × List Nat) :=
  parseHelpLinkLoop (bs.length + 1) bs [] []

def parseHelpLoop : Nat → List Nat → List (List Nat × List Nat) → Option ErrorDetail
  | 0, _, _ => none
  | fuel + 1, bs, acc =>
    if bs = [] then some (.help acc)
    else
      match readTag bs with
      | none => none
      | some (fieldNo, wt, rest) =>
        if fieldNo = 1 ∧ wt = 2 then
          match readLenDelim rest with
          | none => none
          | some (lbytes, r) =>
            match parseHelpLink lbytes with
            | none => none
            | some l => parseHelpLoop fuel r (acc ++ [l])
        else
          match skipWire wt rest with
          | none => none
          | some r => parseHelpLoop fuel r acc

/-- parseHelp of codec/decode.ts. -/
def parseHelp (bs : List Nat) : Option ErrorDetail :=
  parseHelpLoop (bs.length + 1) bs []

def parseAnyLoop : Nat → List Nat → List Nat → List Nat → Option AnyM
  | 0, _, _, _ => none
  | fuel + 1, bs, typeUrl, value =>
    if bs = [] then some ⟨typeUrl, value⟩
    else
      match readTag bs with
      | none => none
      | some (fieldNo, wt, rest) =>
        if fieldNo = 1 then
          match strOrSkip wt rest with
          | none => none
          | some (o, r) => parseAnyLoop fuel r (o.getD typeUrl) value
        else if fieldNo = 2 then
          match strOrSkip wt rest with
          | none => none
          | some (o, r) => parseAnyLoop fuel r typeUrl (o.getD value)
        else
          match skipWire wt rest with
          | none => none
          | some r => parseAnyLoop fuel r typeUrl value

/-- parseAny of codec/status.ts. -/
def parseAny (bs : List Nat) : Option AnyM :=
  parseAnyLoop (bs.length + 1) bs [] []

def parseStatusLoop : Nat → List Nat → Int → List Nat → List AnyM → Option StatusM
  | 0, _, _, _, _ => none
  | fuel + 1, bs, code, message, details =>
    if bs = [] then some ⟨code, message, details⟩
    else
      match readTag bs with
      | none => none
      | some (fieldNo, wt, rest) =>
        if fieldNo = 1 then
          if wt = 0 then
            match readVarint rest with
            | none => none
            | some (v, r) => parseStatusLoop fuel r (toInt32 v) message details
          else
            match skipWire wt rest with
            | none => none
            | some r => parseStatusLoop fuel r code message details
        else if fieldNo = 2 then
          match strOrSkip wt rest with
          | none => none
          | some (o, r) => parseStatusLoop fuel r code (o.getD message) details
        else if fieldNo = 3 then
          if wt = 2 then
            match readLenDelim rest with
            | none => none
            | some (abytes, r) =>
              match parseAny abytes with
              | none => none
              | some a => parseStatusLoop fuel r code message (details ++ [a])
          else
            match skipWire wt rest with
            | none => none
            | some r => parseStatusLoop fuel r code message details
        else
          match skipWire wt rest with
          | none => none
          | some r => parseStatusLoop fuel r code message details

/-- parseStatus of codec/status.ts. -/
def parseStatus (bs : List Nat) : Option StatusM :=
  parseStatusLoop (bs.length + 1) bs 0 [] []

/-- parseErrorDetail of codec/decode.ts: dispatch on the type URL, falling
back to the unknown shape for unrecognized URLs. -/
def parseErrorDetail (a : AnyM) : Option ErrorDetail :=
  if a.typeUrl = urlLocalizedMessage then parseLocalizedMessage a.value
  else if a.typeUrl = urlBadRequest then parseBadRequest a.value
  else if a.typeUrl = urlDebugInfo then parseDebugInfo a.value
  else if a.typeUrl = urlErrorInfo then parseErrorInfo a.value
  else if a.typeUrl = urlRetryInfo then parseRetryInfo a.value
  else if a.typeUrl = urlQuotaFailure then parseQuotaFailure a.value
  else if a.typeUrl = urlPreconditionFailure then parsePreconditionFailure a.value
  else if a.typeUrl = urlRequestInfo then parseRequestInfo a.value
  else if a.typeUrl = urlResourceInfo then parseResourceInfo a.value
  else if a.typeUrl = urlHelp then parseHelp a.value
  else some (.unknown a.typeUrl a.value)

/-- Result of decodeGrpcStatus of codec/decode.ts. -/
structure DecodedGrpcStatus where
  code : Int
  message : List Nat
  localizedMessage : Option (List Nat)
  details : List ErrorDetail
  deriving DecidableEq, Repr

/-- Projection used by decodeGrpcStatus to extract the localized message. -/
def lmMessage : ErrorDetail → Option (List Nat)
  | .localizedMessage _ message => some message
  | _ => none

/-- decodeGrpcStatus of codec/decode.ts: parse the status, map every Any
detail through parseErrorDetail, and surface the first localized message. -/
def decodeGrpcStatus (bs : List Nat) : Option DecodedGrpcStatus :=
  match parseStatus bs with
  | none => none
  | some st =>
    match st.details.mapM parseErrorDetail with
    | none => none
    | some ds =>
      some ⟨st.code, st.message,
        (ds.find? (fun d => (lmMessage d).isSome)).bind lmMessage, ds⟩

/-- The bytes contributed by an optional string field: present iff the
string is non-empty (JS truthiness in the encoder). -/
def optLd (f : Nat) (s : List Nat) : List Nat :=
  if s ≠ [] then ldField f s else []

/-- Loop iterations contributed by an optional string field. -/
def cntNe (s : List Nat) : Nat :=
  if s ≠ [] then 1 else 0

/-- The bytes contributed by the optional code field of encodeStatus. -/
def optCodeBytes (c : Int) : List Nat :=
  if c ≠ 0 then varintField 1 (intVarintPayload c) else []

/-- Loop iterations contributed by the optional code field. -/
def cntC (c : Int) : Nat :=
  if c ≠ 0 then 1 else 0

/-- Field conditions under which a detail record survives the encode/decode
round trip: unique metadata keys for errorInfo (a JS object cannot hold
duplicate keys), an int64-representable non-negative retry delay, and an
unrecognized type URL for the unknown escape hatch. -/
def wfDetail : ErrorDetail → Prop
  | .errorInfo _ _ md => (md.map Prod.fst).Nodup
  | .retryInfo n => 0 ≤ n ∧ n < 2 ^ 63
  | .unknown typeUrl _ => ¬ typeUrl ∈ recognizedTypeUrls
  | _ => True

instance : DecidablePred wfDetail := by
  intro d
  cases d <;> simp only [wfDetail] <;> infer_instance

/-! ## Error taxonomy (grpc-error/src/errors.ts) and the error-mapping
interceptor (grpc-error/src/interceptor.ts) -/
/-- The GrpcError subclass used for a typed error. -/
inductive ErrKind where
  | aborted
  | alreadyExists
  | deadlineExceeded
  | notFound
  | permissionDenied
  | raceUpdate
  | validation
  | unavailable
  | unauthenticated
  | unknownError
  deriving DecidableEq, Repr

/-- The fixed message each subclass constructor passes to super. -/
def kindMessage : ErrKind → String
  | .aborted => "Aborted by client"
  | .alreadyExists => "Already exists"
  | .deadlineExceeded => "Request took too long to respond"
  | .notFound => "Not found"
  | .permissionDenied => "Permission denied"
  | .raceUpdate => "Attempt to update after the item is already updated elsewhere"
  | .validation => "Validation error"
  | .unavailable => "Cannot connect to the server"
  | .unauthenticated => "Unauthenticated"
  | .unknownError => "Unknown error"

/-- Model of the runtime RpcError as far as the interceptor reads it: the
status-code name and the response metadata (header name to value). -/
structure RpcErrorM where
  code : String
  meta : List (String × String)
  deriving DecidableEq, Repr

/-- GrpcErrorOptions of types.ts. -/
structure GrpcErrorOptionsM where
  details : List ErrorDetail
  cause : Option RpcErrorM
  deriving DecidableEq, Repr

/-- A constructed GrpcError value.  allocId models JS object identity: every
constructor invocation yields a fresh reference, so two errors are the same
instance exactly when their allocIds agree. -/
structure GrpcErrorM where
  kind : ErrKind
  message : String
  details : List ErrorDetail
  cause : Option RpcErrorM
  allocId : Nat
  deriving DecidableEq, Repr

/-- Models `new <kind>Error(options?)` of errors.ts: fixed message per kind,
details defaulting to empty, optional cause; n is the fresh identity. -/
def mkGrpcError (n : Nat) (k : ErrKind) (opts : Option GrpcErrorOptionsM) : GrpcErrorM :=
  { kind := k
    message := kindMessage k
    details := match opts with | none => [] | some o => o.details
    cause := match opts with | none => none | some o => o.cause
    allocId := n }

/-- Value of one base64 alphabet character (A-Z a-z 0-9 + /). -/
def b64Val (c : Nat) : Option Nat :=
  if 65 ≤ c ∧ c ≤ 90 then some (c - 65)
  else if 97 ≤ c ∧ c ≤ 122 then some (c - 71)
  else if 48 ≤ c ∧ c ≤ 57 then some (c + 4)
  else if c = 43 then some 62
  else if c = 47 then some 63
  else none

/-- Base64 decoding by 4-character blocks with = padding allowed only at the
very end; none models the exception atob throws on malformed input. -/
def decodeB64Chunks : List Nat → Option (List Nat)
  | [] => some []
  | c1 :: c2 :: c3 :: c4 :: rest =>
    match b64Val c1, b64Val c2 with
    | some v1, some v2 =>
      if c3 = 61 then
        if c4 = 61 ∧ rest = [] then some [v1 * 4 + v2 / 16] else none
      else
        match b64Val c3 with
        | some v3 =>
          if c4 = 61 then
            if rest = [] then some [v1 * 4 + v2 / 16, v2 % 16 * 16 + v3 / 4] else none
          else
            match b64Val c4 with
            | some v4 =>
              match decodeB64Chunks rest with
              | some bs =>
                some ([v1 * 4 + v2 / 16, v2 % 16 * 16 + v3 / 4, v3 % 4 * 64 + v4] ++ bs)
              | none => none
            | none => none
        | none => none
    | _, _ => none
  | _ => none

/-- decodeBase64 of interceptor.ts (platform atob plus byte extraction). -/
def decodeBase64 (s : String) : Option (List Nat) :=
  decodeB64Chunks (s.data.map Char.toNat)

/-- Metadata header lookup (JS object property access on RpcMetadata). -/
def lookupMeta (meta : List (String × String)) (k : String) : Option String :=
  (meta.find? (fun kv => kv.1 = k)).map Prod.snd

/-- parseRichErrorDetails of interceptor.ts: absent header or any decode
exception (the try/catch) yields the empty detail list. -/
def parseRichErrorDetails (meta : List (String × String)) : List ErrorDetail :=
  match lookupMeta meta "grpc-status-details-bin" with
  | none => []
  | some s =>
    match decodeBase64 s with
    | none => []
    | some binary =>
      match decodeGrpcStatus binary with
      | none => []
      | some decoded => decoded.details

/-- mapRpcError of interceptor.ts on RpcError inputs (the stack patching and
onError callback do not affect the produced value).  The counter n supplies
fresh identities; the Bool is options.abort?.aborted at failure time. -/
def mapRpcError (n : Nat) (e : RpcErrorM) (abortAborted : Bool) : GrpcErrorM × Nat :=
  if abortAborted then
    (mkGrpcError n .aborted none, n + 1)
  else
    let opts : GrpcErrorOptionsM :=
      { details := parseRichErrorDetails e.meta, cause := some e }
    let k : ErrKind :=
      if e.code = "CANCELLED" ∨ e.code = "ABORTED" then .aborted
      else if e.code = "UNAUTHENTICATED" then .unauthenticated
      else if e.code = "UNAVAILABLE" then .unavailable
      else if e.code = "ALREADY_EXISTS" then .alreadyExists
      else if e.code = "NOT_FOUND" then .notFound
      else if e.code = "INVALID_ARGUMENT" ∨ e.code = "FAILED_PRECONDITION" then .validation
      else if e.code = "DEADLINE_EXCEEDED" then .deadlineExceeded
      else if e.code = "PERMISSION_DENIED" then .permissionDenied
      else .unknownError
    (mkGrpcError n k (some opts), n + 1)

/-- The four rejection values of interceptUnary's catch block in the error
interceptor: a single mapRpcError result is used for headers, response,
status and trailers. -/
def errorInterceptUnaryRejections (n : Nat) (e : RpcErrorM) (abortAborted : Bool) :
    (GrpcErrorM × GrpcErrorM × GrpcErrorM × GrpcErrorM) × Nat :=
  let r := mapRpcError n e abortAborted
  ((r.1, r.1, r.1, r.1), r.2)

/-- The four rejection values of interceptClientStreaming in the error
interceptor when every underlying channel rejects with the same reason e:
each catch callback invokes mapRpcError on its own. -/
def errorInterceptClientStreamingRejections (n : Nat) (e : RpcErrorM) (abortAborted : Bool) :
    (GrpcErrorM × GrpcErrorM × GrpcErrorM × GrpcErrorM) × Nat :=
  let r1 := mapRpcError n e abortAborted
  let r2 := mapRpcError r1.2 e abortAborted
  let r3 := mapRpcError r2.2 e abortAborted
  let r4 := mapRpcError r3.2 e abortAborted
  ((r1.1, r2.1, r3.1, r4.1), r4.2)

/-- interceptDuplex of the error interceptor likewise maps per channel:
headers, status, trailers deferreds and the response-stream error. -/
def errorInterceptDuplexRejections (n : Nat) (e : RpcErrorM) (abortAborted : Bool) :
    (GrpcErrorM × GrpcErrorM × GrpcErrorM × GrpcErrorM) × Nat :=
  let r1 := mapRpcError n e abortAborted
  let r2 := mapRpcError r1.2 e abortAborted
  let r3 := mapRpcError r2.2 e abortAborted
  let r4 := mapRpcError r3.2 e abortAborted
  ((r1.1, r2.1, r3.1, r4.1), r4.2)

/-- A value a failing channel carries to its consumer: either the original
wire error forwarded untouched, or a typed error built by mapRpcError. -/
inductive RejectionValue where
  | wire (e : RpcErrorM)
  | mapped (g : GrpcErrorM)
  deriving DecidableEq, Repr

/-- interceptServerStreaming of the error interceptor when the underlying
call fails with reason e on every channel: the returned call forwards
serverStream.headers, serverStream.status and serverStream.trailers
directly (their rejections stay the original wire error), and only the
output stream's error event passes through mapRpcError.  Components are
(headers, streamError, status, trailers). -/
def errorInterceptServerStreamingRejections (n : Nat) (e : RpcErrorM) (abortAborted : Bool) :
    (RejectionValue × RejectionValue × RejectionValue × RejectionValue) × Nat :=
  ((RejectionValue.wire e,
    RejectionValue.mapped (mapRpcError n e abortAborted).1,
    RejectionValue.wire e,
    RejectionValue.wire e), (mapRpcError n e abortAborted).2)

/-! ## Metadata-resolution interceptor (metadata/src/metadata-interceptor.ts) -/
/-- JS object spread { ...base, ...upd }: same-key entries are overwritten
in place by the update, new update keys are appended in order. -/
def spreadMerge {V : Type} (base upd : List (String × V)) : List (String × V) :=
  base.map (fun kv =>
    match upd.find? (fun kv2 => kv2.1 = kv.1) with
    | some kv2 => (kv.1, kv2.2)
    | none => kv) ++
  upd.filter (fun kv2 => (base.find? (fun kv => kv.1 = kv2.1)).isNone)

/-- Lookup in a metadata object (first entry wins; JS objects cannot hold
duplicate keys). -/
def lookupVal {V : Type} (meta : List (String × V)) (k : String) : Option V :=
  (meta.find? (fun kv => kv.1 = k)).map Prod.snd

/-- State of one settlement deferred. -/
inductive DeferredState (R : Type) where
  | pending
  | settled
  | rejected (r : R)
  deriving DecidableEq, Repr

/-- The four settlement channels of a call. -/
structure CallChannels (R : Type) where
  headers : DeferredState R
  response : DeferredState R
  status : DeferredState R
  trailers : DeferredState R
  deriving DecidableEq, Repr

/-- interceptUnary of the metadata interceptor: every channel of the
returned call is a then-projection of callPromise, so a provider rejection
propagates to all four channels by promise chaining. -/
def metadataInterceptUnary {R V : Type} (provider : Except R (List (String × V)))
    (callerMeta : List (String × V))
    (next : List (String × V) → CallChannels R) : CallChannels R :=
  match provider with
  | .error r => ⟨.rejected r, .rejected r, .rejected r, .rejected r⟩
  | .ok resolved => next (spreadMerge callerMeta resolved)

/-- interceptClientStreaming of the metadata interceptor: the four deferreds
are settled only inside the then-callback of the provider promise, and the
code attaches no rejection handler to that promise; if the provider rejects
the callback never runs and every deferred stays pending. -/
def metadataInterceptClientStreaming {R V : Type} (provider : Except R (List (String × V)))
    (callerMeta : List (String × V))
    (next : List (String × V) → CallChannels R) : CallChannels R :=
  match provider with
  | .error _ => ⟨.pending, .pending, .pending, .pending⟩
  | .ok resolved => next (spreadMerge callerMeta resolved)

/-! ## Buffering request-stream proxy of the metadata interceptor -/
/-- Caller-side actions on the proxy request stream. -/
inductive CallerAct (I : Type) where
  | send (m : I)
  | complete
  deriving DecidableEq, Repr

/-- Events received by the underlying call's request stream. -/
inductive StreamEvent (I : Type) where
  | msg (m : I)
  | completed
  deriving DecidableEq, Repr

/-- The mutable state closed over by interceptClientStreaming/interceptDuplex:
pendingCall presence (resolved), pendingMessages, sendCompleted, plus the
event sequence the underlying request stream has received. -/
structure ProxyState (I : Type) where
  resolved : Bool
  pending : List I
  sendCompleted : Bool
  received : List (StreamEvent I)
  deriving DecidableEq, Repr

def initProxy {I : Type} : ProxyState I :=
  ⟨false, [], false, []⟩

/-- requestStream.send: forward to the real call once it exists, otherwise
push onto pendingMessages. -/
def proxySend {I : Type} (s : ProxyState I) (m : I) : ProxyState I :=
  if s.resolved then { s with received := s.received ++ [.msg m] }
  else { s with pending := s.pending ++ [m] }

/-- requestStream.complete: forward once the real call exists, otherwise
record sendCompleted. -/
def proxyComplete {I : Type} (s : ProxyState I) : ProxyState I :=
  if s.resolved then { s with received := s.received ++ [.completed] }
  else { s with sendCompleted := true }

/-- The provider-resolution callback: create the real call, flush the
buffered messages in order, clear the buffer, then forward the buffered
complete signal if any. -/
def proxyResolve {I : Type} (s : ProxyState I) : ProxyState I :=
  { resolved := true
    pending := []
    sendCompleted := s.sendCompleted
    received := s.received ++ s.pending.map .msg ++
      (if s.sendCompleted then [.completed] else []) }

def stepAct {I : Type} (s : ProxyState I) (a : CallerAct I) : ProxyState I :=
  match a with
  | .send m => proxySend s m
  | .complete => proxyComplete s

/-- One call lifetime: the caller actions before provider resolution, the
resolution callback, then the actions after resolution. -/
def runProxy {I : Type} (pre post : List (CallerAct I)) : ProxyState I :=
  post.foldl stepAct (proxyResolve (pre.foldl stepAct initProxy))

def actMsgs {I : Type} : List (CallerAct I) → List I
  | [] => []
  | .send m :: t => m :: actMsgs t
  | .complete :: t => actMsgs t

def hasComplete {I : Type} : List (CallerAct I) → Bool
  | [] => false
  | .send _ :: t => hasComplete t
  | .complete :: _ => true

def completeCount {I : Type} : List (CallerAct I) → Nat
  | [] => 0
  | .send _ :: t => completeCount t
  | .complete :: t => completeCount t + 1

/-- No send occurs after a complete within the given action segment. -/
def noSendAfterComplete {I : Type} : List (CallerAct I) → Bool
  | [] => true
  | .send _ :: t => noSendAfterComplete t
  | .complete :: t => t.all (fun a => match a with | .send _ => false | .complete => true)

/-- Events delivered when the segment runs entirely after resolution. -/
def actEvents {I : Type} : List (CallerAct I) → List (StreamEvent I)
  | [] => []
  | .send m :: t => .msg m :: actEvents t
  | .complete :: t => .completed :: actEvents t

/-- The content of a typed error apart from its identity. -/
def contentOf (g : GrpcErrorM) : ErrKind × String × List ErrorDetail × Option RpcErrorM :=
  (g.kind, g.message, g.details, g.cause)

/-! ## Theorems -/

/-! ### Round-trip lemmas for the wire primitives -/
theorem readVarint_enc (n : Nat) (rest : List Nat) :
    readVarint (encVarint n ++ rest) = some (n, rest) := by
  induction n using Nat.strong_induction_on with
  | _ n ih =>
    by_cases h : n < 128
    · rw [encVarint]
      simp [h, readVarint]
    · rw [encVarint]
      simp only [h, if_false, List.cons_append, readVarint]
      rw [ih (n / 128) (by omega)]
      have h1 : ¬ n % 128 + 128 < 128 := by omega
      simp only [h1, if_false, Option.some.injEq, Prod.mk.injEq]
      refine ⟨?_, trivial⟩
      omega

theorem encVarint_length_pos (n : Nat) : 0 < (encVarint n).length := by
  rw [encVarint]
  by_cases h : n < 128 <;> simp [h]

theorem readTag_enc (f wt : Nat) (rest : List Nat) (hf : 1 ≤ f) (hw : wt ≤ 5) :
    readTag (tagBytes f wt ++ rest) = some (f, wt, rest) := by
  have h1 : (f * 8 + wt) / 8 = f := by omega
  have h2 : (f * 8 + wt) % 8 = wt := by omega
  simp only [tagBytes, readTag, readVarint_enc, h1, h2]
  rw [if_neg (by omega)]

theorem readLenDelim_enc (bs rest : List Nat) :
    readLenDelim (lenDelim bs ++ rest) = some (bs, rest) := by
  rw [lenDelim, List.append_assoc, readLenDelim, readVarint_enc]
  simp only [List.length_append, Nat.le_add_right, if_pos, List.take_left, List.drop_left]

theorem ldField_length_pos (f : Nat) (bs : List Nat) : 0 < (ldField f bs).length := by
  rw [ldField, tagBytes]
  simp only [List.length_append]
  have := encVarint_length_pos (f * 8 + 2)
  omega

theorem varintField_length_pos (f n : Nat) : 0 < (varintField f n).length := by
  rw [varintField, tagBytes]
  simp only [List.length_append]
  have := encVarint_length_pos (f * 8 + 0)
  omega

/-! ## Round-trip proofs for the codec -/
theorem ldField_append_ne_nil (f : Nat) (s rest : List Nat) : ldField f s ++ rest ≠ [] := by
  have h := ldField_length_pos f s
  intro hc
  have hlen := congrArg List.length hc
  simp only [List.length_append, List.length_nil] at hlen
  omega

theorem varintField_append_ne_nil (f n : Nat) (rest : List Nat) : varintField f n ++ rest ≠ [] := by
  have h := varintField_length_pos f n
  intro hc
  have hlen := congrArg List.length hc
  simp only [List.length_append, List.length_nil] at hlen
  omega

theorem readTag_ldField (f : Nat) (s rest : List Nat) (hf : 1 ≤ f) :
    readTag (ldField f s ++ rest) = some (f, 2, lenDelim s ++ rest) := by
  rw [ldField, List.append_assoc]
  exact readTag_enc f 2 (lenDelim s ++ rest) hf (by norm_num)

theorem readTag_varintField (f n : Nat) (rest : List Nat) (hf : 1 ≤ f) :
    readTag (varintField f n ++ rest) = some (f, 0, encVarint n ++ rest) := by
  rw [varintField, List.append_assoc]
  exact readTag_enc f 0 (encVarint n ++ rest) hf (by norm_num)

theorem strOrSkip_ld (bs rest : List Nat) :
    strOrSkip 2 (lenDelim bs ++ rest) = some (some bs, rest) := by
  simp [strOrSkip, readLenDelim_enc]

theorem parseLMLoop_nil (fuel : Nat) (a b : List Nat) :
    parseLocalizedMessageLoop (fuel + 1) [] a b = some (.localizedMessage a b) := by
  simp [parseLocalizedMessageLoop]

theorem parseLMLoop_step1 (fuel : Nat) (s rest a b : List Nat) :
    parseLocalizedMessageLoop (fuel + 1) (ldField 1 s ++ rest) a b
      = parseLocalizedMessageLoop fuel rest s b := by
  simp only [parseLocalizedMessageLoop]
  rw [if_neg (ldField_append_ne_nil 1 s rest), readTag_ldField 1 s rest (by norm_num)]
  simp [strOrSkip_ld]

theorem parseLMLoop_step2 (fuel : Nat) (s rest a b : List Nat) :
    parseLocalizedMessageLoop (fuel + 1) (ldField 2 s ++ rest) a b
      = parseLocalizedMessageLoop fuel rest a s := by
  simp only [parseLocalizedMessageLoop]
  rw [if_neg (ldField_append_ne_nil 2 s rest), readTag_ldField 2 s rest (by norm_num)]
  simp [strOrSkip_ld]

theorem parseLocalizedMessage_enc (a b : List Nat) :
    parseLocalizedMessage (encodeLocalizedMessage a b) = some (.localizedMessage a b) := by
  rw [parseLocalizedMessage]
  by_cases ha : a = []
  · by_cases hb : b = []
    · subst ha; subst hb
      simp only [encodeLocalizedMessage, ne_eq, not_true_eq_false, if_false, List.append_nil]
      exact parseLMLoop_nil _ [] []
    · subst ha
      have e : encodeLocalizedMessage [] b = ldField 2 b ++ [] := by
        simp [encodeLocalizedMessage, hb]
      rw [e]
      have hl := ldField_length_pos 2 b
      obtain ⟨k, hk⟩ : ∃ k, (ldField 2 b ++ []).length + 1 = (k + 1) + 1 := by
        refine ⟨(ldField 2 b ++ []).length - 1, ?_⟩
        simp only [List.length_append, List.length_nil]
        omega
      rw [hk, parseLMLoop_step2]
      exact parseLMLoop_nil _ [] b
  · by_cases hb : b = []
    · subst hb
      have e : encodeLocalizedMessage a [] = ldField 1 a ++ [] := by
        simp [encodeLocalizedMessage, ha]
      rw [e]
      obtain ⟨k, hk⟩ : ∃ k, (ldField 1 a ++ []).length + 1 = (k + 1) + 1 := by
        refine ⟨(ldField 1 a ++ []).length - 1, ?_⟩
        have := ldField_length_pos 1 a
        simp only [List.length_append, List.length_nil]
        omega
      rw [hk, parseLMLoop_step1]
      exact parseLMLoop_nil _ a []
    · have e : encodeLocalizedMessage a b = ldField 1 a ++ (ldField 2 b ++ []) := by
        simp [encodeLocalizedMessage, ha, hb]
      rw [e]
      have h1 := ldField_length_pos 1 a
      have h2 := ldField_length_pos 2 b
      obtain ⟨k, hk⟩ : ∃ k, (ldField 1 a ++ (ldField 2 b ++ [])).length + 1 = (k + 1 + 1) + 1 := by
        refine ⟨(ldField 1 a ++ (ldField 2 b ++ [])).length - 2, ?_⟩
        simp only [List.length_append, List.length_nil]
        omega
      rw [hk, parseLMLoop_step1, parseLMLoop_step2]
      exact parseLMLoop_nil _ a b

theorem cntNe_le_optLd (f : Nat) (s : List Nat) : cntNe s ≤ (optLd f s).length := by
  by_cases hs : s = []
  · simp [cntNe, optLd, hs]
  · have := ldField_length_pos f s
    simp [cntNe, optLd, hs]
    omega

theorem length_le_flatten_length {α : Type} (l : List α) (g : α → List Nat)
    (h : ∀ x, 0 < (g x).length) : l.length ≤ ((l.map g).flatten).length := by
  induction l with
  | nil => simp
  | cons x t ih =>
    simp only [List.map_cons, List.flatten_cons, List.length_append, List.length_cons]
    have := h x
    omega

theorem parseFVLoop_nil (fuel : Nat) (a b : List Nat) :
    parseFieldViolationLoop (fuel + 1) [] a b = some (a, b) := by
  simp [parseFieldViolationLoop]

theorem parseFVLoop_step1 (fuel : Nat) (s rest a b : List Nat) :
    parseFieldViolationLoop (fuel + 1) (ldField 1 s ++ rest) a b
      = parseFieldViolationLoop fuel rest s b := by
  simp only [parseFieldViolationLoop]
  rw [if_neg (ldField_append_ne_nil 1 s rest), readTag_ldField 1 s rest (by norm_num)]
  simp [strOrSkip_ld]

theorem parseFVLoop_step2 (fuel : Nat) (s rest a b : List Nat) :
    parseFieldViolationLoop (fuel + 1) (ldField 2 s ++ rest) a b
      = parseFieldViolationLoop fuel rest a s := by
  simp only [parseFieldViolationLoop]
  rw [if_neg (ldField_append_ne_nil 2 s rest), readTag_ldField 2 s rest (by norm_num)]
  simp [strOrSkip_ld]

theorem parseFVLoop_opt1 (fuel : Nat) (s rest b : List Nat) :
    parseFieldViolationLoop (fuel + cntNe s) (optLd 1 s ++ rest) [] b
      = parseFieldViolationLoop fuel rest s b := by
  by_cases hs : s = []
  · subst hs; simp [cntNe, optLd]
  · simp only [cntNe, optLd, ne_eq, hs, not_false_eq_true, if_true]
    exact parseFVLoop_step1 fuel s rest [] b

theorem parseFVLoop_opt2 (fuel : Nat) (s rest a : List Nat) :
    parseFieldViolationLoop (fuel + cntNe s) (optLd 2 s ++ rest) a []
      = parseFieldViolationLoop fuel rest a s := by
  by_cases hs : s = []
  · subst hs; simp [cntNe, optLd]
  · simp only [cntNe, optLd, ne_eq, hs, not_false_eq_true, if_true]
    exact parseFVLoop_step2 fuel s rest a []

theorem parseFieldViolation_enc (a b : List Nat) :
    parseFieldViolation (encodeFieldViolation a b) = some (a, b) := by
  rw [parseFieldViolation]
  have e : encodeFieldViolation a b = optLd 1 a ++ (optLd 2 b ++ []) := by
    rw [List.append_nil]; rfl
  rw [e]
  obtain ⟨f0, hf0⟩ : ∃ f0, (optLd 1 a ++ (optLd 2 b ++ [])).length + 1
      = f0 + 1 + cntNe b + cntNe a := by
    refine ⟨(optLd 1 a ++ (optLd 2 b ++ [])).length - cntNe a - cntNe b, ?_⟩
    have h1 := cntNe_le_optLd 1 a
    have h2 := cntNe_le_optLd 2 b
    simp only [List.length_append, List.length_nil]
    omega
  rw [hf0, parseFVLoop_opt1, parseFVLoop_opt2, parseFVLoop_nil]

theorem parseMELoop_nil (fuel : Nat) (a b : List Nat) :
    parseMapEntryLoop (fuel + 1) [] a b = some (a, b) := by
  simp [parseMapEntryLoop]

theorem parseMELoop_step1 (fuel : Nat) (s rest a b : List Nat) :
    parseMapEntryLoop (fuel + 1) (ldField 1 s ++ rest) a b
      = parseMapEntryLoop fuel rest s b := by
  simp only [parseMapEntryLoop]
  rw [if_neg (ldField_append_ne_nil 1 s rest), readTag_ldField 1 s rest (by norm_num)]
  simp [strOrSkip_ld]

theorem parseMELoop_step2 (fuel : Nat) (s rest a b : List Nat) :
    parseMapEntryLoop (fuel + 1) (ldField 2 s ++ rest) a b
      = parseMapEntryLoop fuel rest a s := by
  simp only [parseMapEntryLoop]
  rw [if_neg (ldField_append_ne_nil 2 s rest), readTag_ldField 2 s rest (by norm_num)]
  simp [strOrSkip_ld]

theorem parseMapEntry_enc (a b : List Nat) :
    parseMapEntry (encodeMapEntry a b) = some (a, b) := by
  rw [parseMapEntry]
  have e : encodeMapEntry a b = ldField 1 a ++ (ldField 2 b ++ []) := by
    rw [List.append_nil]; rfl
  rw [e]
  obtain ⟨f0, hf0⟩ : ∃ f0, (ldField 1 a ++ (ldField 2 b ++ [])).length + 1
      = f0 + 1 + 1 + 1 := by
    refine ⟨(ldField 1 a ++ (ldField 2 b ++ [])).length - 2, ?_⟩
    have h1 := ldField_length_pos 1 a
    have h2 := ldField_length_pos 2 b
    simp only [List.length_append, List.length_nil]
    omega
  rw [hf0, parseMELoop_step1, parseMELoop_step2, parseMELoop_nil]

theorem parseQVLoop_nil (fuel : Nat) (a b : List Nat) :
    parseQuotaViolationLoop (fuel + 1) [] a b = some (a, b) := by
  simp [parseQuotaViolationLoop]

theorem parseQVLoop_step1 (fuel : Nat) (s rest a b : List Nat) :
    parseQuotaViolationLoop (fuel + 1) (ldField 1 s ++ rest) a b
      = parseQuotaViolationLoop fuel rest s b := by
  simp only [parseQuotaViolationLoop]
  rw [if_neg (ldField_append_ne_nil 1 s rest), readTag_ldField 1 s rest (by norm_num)]
  simp [strOrSkip_ld]

theorem parseQVLoop_step2 (fuel : Nat) (s rest a b : List Nat) :
    parseQuotaViolationLoop (fuel + 1) (ldField 2 s ++ rest) a b
      = parseQuotaViolationLoop fuel rest a s := by
  simp only [parseQuotaViolationLoop]
  rw [if_neg (ldField_append_ne_nil 2 s rest), readTag_ldField 2 s rest (by norm_num)]
  simp [strOrSkip_ld]

theorem parseQVLoop_opt1 (fuel : Nat) (s rest b : List Nat) :
    parseQuotaViolationLoop (fuel + cntNe s) (optLd 1 s ++ rest) [] b
      = parseQuotaViolationLoop fuel rest s b := by
  by_cases hs : s = []
  · subst hs; simp [cntNe, optLd]
  · simp only [cntNe, optLd, ne_eq, hs, not_false_eq_true, if_true]
    exact parseQVLoop_step1 fuel s rest [] b

theorem parseQVLoop_opt2 (fuel : Nat) (s rest a : List Nat) :
    parseQuotaViolationLoop (fuel + cntNe s) (optLd 2 s ++ rest) a []
      = parseQuotaViolationLoop fuel rest a s := by
  by_cases hs : s = []
  · subst hs; simp [cntNe, optLd]
  · simp only [cntNe, optLd, ne_eq, hs, not_false_eq_true, if_true]
    exact parseQVLoop_step2 fuel s rest a []

theorem parseQuotaViolation_enc (a b : List Nat) :
    parseQuotaViolation (encodeQuotaViolation a b) = some (a, b) := by
  rw [parseQuotaViolation]
  have e : encodeQuotaViolation a b = optLd 1 a ++ (optLd 2 b ++ []) := by
    rw [List.append_nil]; rfl
  rw [e]
  obtain ⟨f0, hf0⟩ : ∃ f0, (optLd 1 a ++ (optLd 2 b ++ [])).length + 1
      = f0 + 1 + cntNe b + cntNe a := by
    refine ⟨(optLd 1 a ++ (optLd 2 b ++ [])).length - cntNe a - cntNe b, ?_⟩
    have h1 := cntNe_le_optLd 1 a
    have h2 := cntNe_le_optLd 2 b
    simp only [List.length_append, List.length_nil]
    omega
  rw [hf0, parseQVLoop_opt1, parseQVLoop_opt2, parseQVLoop_nil]

theorem parseHLLoop_nil (fuel : Nat) (a b : List Nat) :
    parseHelpLinkLoop (fuel + 1) [] a b = some (a, b) := by
  simp [parseHelpLinkLoop]

theorem parseHLLoop_step1 (fuel : Nat) (s rest a b : List Nat) :
    parseHelpLinkLoop (fuel + 1) (ldField 1 s ++ rest) a b
      = parseHelpLinkLoop fuel rest s b := by
  simp only [parseHelpLinkLoop]
  rw [if_neg (ldField_append_ne_nil 1 s rest), readTag_ldField 1 s rest (by norm_num)]
  simp [strOrSkip_ld]

theorem parseHLLoop_step2 (fuel : Nat) (s rest a b : List Nat) :
    parseHelpLinkLoop (fuel + 1) (ldField 2 s ++ rest) a b
      = parseHelpLinkLoop fuel rest a s := by
  simp only [parseHelpLinkLoop]
  rw [if_neg (ldField_append_ne_nil 2 s rest), readTag_ldField 2 s rest (by norm_num)]
  simp [strOrSkip_ld]

theorem parseHLLoop_opt1 (fuel : Nat) (s rest b : List Nat) :
    parseHelpLinkLoop (fuel + cntNe s) (optLd 1 s ++ rest) [] b
      = parseHelpLinkLoop fuel rest s b := by
  by_cases hs : s = []
  · subst hs; simp [cntNe, optLd]
  · simp only [cntNe, optLd, ne_eq, hs, not_false_eq_true, if_true]
    exact parseHLLoop_step1 fuel s rest [] b

theorem parseHLLoop_opt2 (fuel : Nat) (s rest a : List Nat) :
    parseHelpLinkLoop (fuel + cntNe s) (optLd 2 s ++ rest) a []
      = parseHelpLinkLoop fuel rest a s := by
  by_cases hs : s = []
  · subst hs; simp [cntNe, optLd]
  · simp only [cntNe, optLd, ne_eq, hs, not_false_eq_true, if_true]
    exact parseHLLoop_step2 fuel s rest a []

theorem parseHelpLink_enc (a b : List Nat) :
    parseHelpLink (encodeHelpLink a b) = some (a, b) := by
  rw [parseHelpLink]
  have e : encodeHelpLink a b = optLd 1 a ++ (optLd 2 b ++ []) := by
    rw [List.append_nil]; rfl
  rw [e]
  obtain ⟨f0, hf0⟩ : ∃ f0, (optLd 1 a ++ (optLd 2 b ++ [])).length + 1
      = f0 + 1 + cntNe b + cntNe a := by
    refine ⟨(optLd 1 a ++ (optLd 2 b ++ [])).length - cntNe a - cntNe b, ?_⟩
    have h1 := cntNe_le_optLd 1 a
    have h2 := cntNe_le_optLd 2 b
    simp only [List.length_append, List.length_nil]
    omega
  rw [hf0, parseHLLoop_opt1, parseHLLoop_opt2, parseHLLoop_nil]

theorem parseReqLoop_nil (fuel : Nat) (a b : List Nat) :
    parseRequestInfoLoop (fuel + 1) [] a b = some (ErrorDetail.requestInfo a b) := by
  simp [parseRequestInfoLoop]

theorem parseReqLoop_step1 (fuel : Nat) (s rest a b : List Nat) :
    parseRequestInfoLoop (fuel + 1) (ldField 1 s ++ rest) a b
      = parseRequestInfoLoop fuel rest s b := by
  simp only [parseRequestInfoLoop]
  rw [if_neg (ldField_append_ne_nil 1 s rest), readTag_ldField 1 s rest (by norm_num)]
  simp [strOrSkip_ld]

theorem parseReqLoop_step2 (fuel : Nat) (s rest a b : List Nat) :
    parseRequestInfoLoop (fuel + 1) (ldField 2 s ++ rest) a b
      = parseRequestInfoLoop fuel rest a s := by
  simp only [parseRequestInfoLoop]
  rw [if_neg (ldField_append_ne_nil 2 s rest), readTag_ldField 2 s rest (by norm_num)]
  simp [strOrSkip_ld]

theorem parseReqLoop_opt1 (fuel : Nat) (s rest b : List Nat) :
    parseRequestInfoLoop (fuel + cntNe s) (optLd 1 s ++ rest) [] b
      = parseRequestInfoLoop fuel rest s b := by
  by_cases hs : s = []
  · subst hs; simp [cntNe, optLd]
  · simp only [cntNe, optLd, ne_eq, hs, not_false_eq_true, if_true]
    exact parseReqLoop_step1 fuel s rest [] b

theorem parseReqLoop_opt2 (fuel : Nat) (s rest a : List Nat) :
    parseRequestInfoLoop (fuel + cntNe s) (optLd 2 s ++ rest) a []
      = parseRequestInfoLoop fuel rest a s := by
  by_cases hs : s = []
  · subst hs; simp [cntNe, optLd]
  · simp only [cntNe, optLd, ne_eq, hs, not_false_eq_true, if_true]
    exact parseReqLoop_step2 fuel s rest a []

theorem parseRequestInfo_enc (a b : List Nat) :
    parseRequestInfo (encodeRequestInfo a b) = some (ErrorDetail.requestInfo a b) := by
  rw [parseRequestInfo]
  have e : encodeRequestInfo a b = optLd 1 a ++ (optLd 2 b ++ []) := by
    rw [List.append_nil]; rfl
  rw [e]
  obtain ⟨f0, hf0⟩ : ∃ f0, (optLd 1 a ++ (optLd 2 b ++ [])).length + 1
      = f0 + 1 + cntNe b + cntNe a := by
    refine ⟨(optLd 1 a ++ (optLd 2 b ++ [])).length - cntNe a - cntNe b, ?_⟩
    have h1 := cntNe_le_optLd 1 a
    have h2 := cntNe_le_optLd 2 b
    simp only [List.length_append, List.length_nil]
    omega
  rw [hf0, parseReqLoop_opt1, parseReqLoop_opt2, parseReqLoop_nil]

theorem parsePVLoop_nil (fuel : Nat) (a b c : List Nat) :
    parsePreconditionViolationLoop (fuel + 1) [] a b c = some (a, b, c) := by
  simp [parsePreconditionViolationLoop]

theorem parsePVLoop_step1 (fuel : Nat) (s rest a b c : List Nat) :
    parsePreconditionViolationLoop (fuel + 1) (ldField 1 s ++ rest) a b c
      = parsePreconditionViolationLoop fuel rest s b c := by
  simp only [parsePreconditionViolationLoop]
  rw [if_neg (ldField_append_ne_nil 1 s rest), readTag_ldField 1 s rest (by norm_num)]
  simp [strOrSkip_ld]

theorem parsePVLoop_step2 (fuel : Nat) (s rest a b c : List Nat) :
    parsePreconditionViolationLoop (fuel + 1) (ldField 2 s ++ rest) a b c
      = parsePreconditionViolationLoop fuel rest a s c := by
  simp only [parsePreconditionViolationLoop]
  rw [if_neg (ldField_append_ne_nil 2 s rest), readTag_ldField 2 s rest (by norm_num)]
  simp [strOrSkip_ld]

theorem parsePVLoop_step3 (fuel : Nat) (s rest a b c : List Nat) :
    parsePreconditionViolationLoop (fuel + 1) (ldField 3 s ++ rest) a b c
      = parsePreconditionViolationLoop fuel rest a b s := by
  simp only [parsePreconditionViolationLoop]
  rw [if_neg (ldField_append_ne_nil 3 s rest), readTag_ldField 3 s rest (by norm_num)]
  simp [strOrSkip_ld]

theorem parsePVLoop_opt1 (fuel : Nat) (s rest b c : List Nat) :
    parsePreconditionViolationLoop (fuel + cntNe s) (optLd 1 s ++ rest) [] b c
      = parsePreconditionViolationLoop fuel rest s b c := by
  by_cases hs : s = []
  · subst hs; simp [cntNe, optLd]
  · simp only [cntNe, optLd, ne_eq, hs, not_false_eq_true, if_true]
    exact parsePVLoop_step1 fuel s rest [] b c

theorem parsePVLoop_opt2 (fuel : Nat) (s rest a c : List Nat) :
    parsePreconditionViolationLoop (fuel + cntNe s) (optLd 2 s ++ rest) a [] c
      = parsePreconditionViolationLoop fuel rest a s c := by
  by_cases hs : s = []
  · subst hs; simp [cntNe, optLd]
  · simp only [cntNe, optLd, ne_eq, hs, not_false_eq_true, if_true]
    exact parsePVLoop_step2 fuel s rest a [] c

theorem parsePVLoop_opt3 (fuel : Nat) (s rest a b : List Nat) :
    parsePreconditionViolationLoop (fuel + cntNe s) (optLd 3 s ++ rest) a b []
      = parsePreconditionViolationLoop fuel rest a b s := by
  by_cases hs : s = []
  · subst hs; simp [cntNe, optLd]
  · simp only [cntNe, optLd, ne_eq, hs, not_false_eq_true, if_true]
    exact parsePVLoop_step3 fuel s rest a b []

theorem parsePreconditionViolation_enc (a b c : List Nat) :
    parsePreconditionViolation (encodePreconditionViolation a b c) = some (a, b, c) := by
  rw [parsePreconditionViolation]
  have e : encodePreconditionViolation a b c
      = optLd 1 a ++ (optLd 2 b ++ (optLd 3 c ++ [])) := by
    rw [List.append_nil, ← List.append_assoc]; rfl
  rw [e]
  obtain ⟨f0, hf0⟩ : ∃ f0, (optLd 1 a ++ (optLd 2 b ++ (optLd 3 c ++ []))).length + 1
      = f0 + 1 + cntNe c + cntNe b + cntNe a := by
    refine ⟨(optLd 1 a ++ (optLd 2 b ++ (optLd 3 c ++ []))).length
      - cntNe a - cntNe b - cntNe c, ?_⟩
    have h1 := cntNe_le_optLd 1 a
    have h2 := cntNe_le_optLd 2 b
    have h3 := cntNe_le_optLd 3 c
    simp only [List.length_append, List.length_nil]
    omega
  rw [hf0, parsePVLoop_opt1, parsePVLoop_opt2, parsePVLoop_opt3, parsePVLoop_nil]

theorem parseResLoop_nil (fuel : Nat) (a b c d : List Nat) :
    parseResourceInfoLoop (fuel + 1) [] a b c d = some (ErrorDetail.resourceInfo a b c d) := by
  simp [parseResourceInfoLoop]

theorem parseResLoop_step1 (fuel : Nat) (s rest a b c d : List Nat) :
    parseResourceInfoLoop (fuel + 1) (ldField 1 s ++ rest) a b c d
      = parseResourceInfoLoop fuel rest s b c d := by
  simp only [parseResourceInfoLoop]
  rw [if_neg (ldField_append_ne_nil 1 s rest), readTag_ldField 1 s rest (by norm_num)]
  simp [strOrSkip_ld]

theorem parseResLoop_step2 (fuel : Nat) (s rest a b c d : List Nat) :
    parseResourceInfoLoop (fuel + 1) (ldField 2 s ++ rest) a b c d
      = parseResourceInfoLoop fuel rest a s c d := by
  simp only [parseResourceInfoLoop]
  rw [if_neg (ldField_append_ne_nil 2 s rest), readTag_ldField 2 s rest (by norm_num)]
  simp [strOrSkip_ld]

theorem parseResLoop_step3 (fuel : Nat) (s rest a b c d : List Nat) :
    parseResourceInfoLoop (fuel + 1) (ldField 3 s ++ rest) a b c d
      = parseResourceInfoLoop fuel rest a b s d := by
  simp only [parseResourceInfoLoop]
  rw [if_neg (ldField_append_ne_nil 3 s rest), readTag_ldField 3 s rest (by norm_num)]
  simp [strOrSkip_ld]

theorem parseResLoop_step4 (fuel : Nat) (s rest a b c d : List Nat) :
    parseResourceInfoLoop (fuel + 1) (ldField 4 s ++ rest) a b c d
      = parseResourceInfoLoop fuel rest a b c s := by
  simp only [parseResourceInfoLoop]
  rw [if_neg (ldField_append_ne_nil 4 s rest), readTag_ldField 4 s rest (by norm_num)]
  simp [strOrSkip_ld]

theorem parseResLoop_opt1 (fuel : Nat) (s rest b c d : List Nat) :
    parseResourceInfoLoop (fuel + cntNe s) (optLd 1 s ++ rest) [] b c d
      = parseResourceInfoLoop fuel rest s b c d := by
  by_cases hs : s = []
  · subst hs; simp [cntNe, optLd]
  · simp only [cntNe, optLd, ne_eq, hs, not_false_eq_true, if_true]
    exact parseResLoop_step1 fuel s rest [] b c d

theorem parseResLoop_opt2 (fuel : Nat) (s rest a c d : List Nat) :
    parseResourceInfoLoop (fuel + cntNe s) (optLd 2 s ++ rest) a [] c d
      = parseResourceInfoLoop fuel rest a s c d := by
  by_cases hs : s = []
  · subst hs; simp [cntNe, optLd]
  · simp only [cntNe, optLd, ne_eq, hs, not_false_eq_true, if_true]
    exact parseResLoop_step2 fuel s rest a [] c d

theorem parseResLoop_opt3 (fuel : Nat) (s rest a b d : List Nat) :
    parseResourceInfoLoop (fuel + cntNe s) (optLd 3 s ++ rest) a b [] d
      = parseResourceInfoLoop fuel rest a b s d := by
  by_cases hs : s = []
  · subst hs; simp [cntNe, optLd]
  · simp only [cntNe, optLd, ne_eq, hs, not_false_eq_true, if_true]
    exact parseResLoop_step3 fuel s rest a b [] d

theorem parseResLoop_opt4 (fuel : Nat) (s rest a b c : List Nat) :
    parseResourceInfoLoop (fuel + cntNe s) (optLd 4 s ++ rest) a b c []
      = parseResourceInfoLoop fuel rest a b c s := by
  by_cases hs : s = []
  · subst hs; simp [cntNe, optLd]
  · simp only [cntNe, optLd, ne_eq, hs, not_false_eq_true, if_true]
    exact parseResLoop_step4 fuel s rest a b c []

theorem parseResourceInfo_enc (a b c d : List Nat) :
    parseResourceInfo (encodeResourceInfo a b c d) = some (ErrorDetail.resourceInfo a b c d) := by
  rw [parseResourceInfo]
  have e : encodeResourceInfo a b c d
      = optLd 1 a ++ (optLd 2 b ++ (optLd 3 c ++ (optLd 4 d ++ []))) := by
    rw [List.append_nil, ← List.append_assoc, ← List.append_assoc]; rfl
  rw [e]
  obtain ⟨f0, hf0⟩ : ∃ f0,
      (optLd 1 a ++ (optLd 2 b ++ (optLd 3 c ++ (optLd 4 d ++ [])))).length + 1
      = f0 + 1 + cntNe d + cntNe c + cntNe b + cntNe a := by
    refine ⟨(optLd 1 a ++ (optLd 2 b ++ (optLd 3 c ++ (optLd 4 d ++ [])))).length
      - cntNe a - cntNe b - cntNe c - cntNe d, ?_⟩
    have h1 := cntNe_le_optLd 1 a
    have h2 := cntNe_le_optLd 2 b
    have h3 := cntNe_le_optLd 3 c
    have h4 := cntNe_le_optLd 4 d
    simp only [List.length_append, List.length_nil]
    omega
  rw [hf0, parseResLoop_opt1, parseResLoop_opt2, parseResLoop_opt3, parseResLoop_opt4, parseResLoop_nil]

theorem parseAnyLoop_nil (fuel : Nat) (a b : List Nat) :
    parseAnyLoop (fuel + 1) [] a b = some (AnyM.mk a b) := by
  simp [parseAnyLoop]

theorem parseAnyLoop_step1 (fuel : Nat) (s rest a b : List Nat) :
    parseAnyLoop (fuel + 1) (ldField 1 s ++ rest) a b
      = parseAnyLoop fuel rest s b := by
  simp only [parseAnyLoop]
  rw [if_neg (ldField_append_ne_nil 1 s rest), readTag_ldField 1 s rest (by norm_num)]
  simp [strOrSkip_ld]

theorem parseAnyLoop_step2 (fuel : Nat) (s rest a b : List Nat) :
    parseAnyLoop (fuel + 1) (ldField 2 s ++ rest) a b
      = parseAnyLoop fuel rest a s := by
  simp only [parseAnyLoop]
  rw [if_neg (ldField_append_ne_nil 2 s rest), readTag_ldField 2 s rest (by norm_num)]
  simp [strOrSkip_ld]

theorem parseAnyLoop_opt1 (fuel : Nat) (s rest b : List Nat) :
    parseAnyLoop (fuel + cntNe s) (optLd 1 s ++ rest) [] b
      = parseAnyLoop fuel rest s b := by
  by_cases hs : s = []
  · subst hs; simp [cntNe, optLd]
  · simp only [cntNe, optLd, ne_eq, hs, not_false_eq_true, if_true]
    exact parseAnyLoop_step1 fuel s rest [] b

theorem parseAnyLoop_opt2 (fuel : Nat) (s rest a : List Nat) :
    parseAnyLoop (fuel + cntNe s) (optLd 2 s ++ rest) a []
      = parseAnyLoop fuel rest a s := by
  by_cases hs : s = []
  · subst hs; simp [cntNe, optLd]
  · simp only [cntNe, optLd, ne_eq, hs, not_false_eq_true, if_true]
    exact parseAnyLoop_step2 fuel s rest a []

theorem encodeAny_eq_optLd (x : AnyM) :
    encodeAny x = optLd 1 x.typeUrl ++ optLd 2 x.value := by
  obtain ⟨a, b⟩ := x
  simp only [encodeAny, optLd]
  congr 1
  by_cases hb : b = [] <;> simp [hb]

theorem parseAny_enc (x : AnyM) : parseAny (encodeAny x) = some x := by
  obtain ⟨a, b⟩ := x
  rw [parseAny]
  have e : encodeAny (AnyM.mk a b) = optLd 1 a ++ (optLd 2 b ++ []) := by
    rw [List.append_nil]
    exact encodeAny_eq_optLd (AnyM.mk a b)
  rw [e]
  obtain ⟨f0, hf0⟩ : ∃ f0, (optLd 1 a ++ (optLd 2 b ++ [])).length + 1
      = f0 + 1 + cntNe b + cntNe a := by
    refine ⟨(optLd 1 a ++ (optLd 2 b ++ [])).length - cntNe a - cntNe b, ?_⟩
    have h1 := cntNe_le_optLd 1 a
    have h2 := cntNe_le_optLd 2 b
    simp only [List.length_append, List.length_nil]
    omega
  rw [hf0, parseAnyLoop_opt1, parseAnyLoop_opt2, parseAnyLoop_nil]

theorem parseBRLoop_nil (fuel : Nat) (acc : List (List Nat × List Nat)) :
    parseBadRequestLoop (fuel + 1) [] acc = some (ErrorDetail.badRequest acc) := by
  simp [parseBadRequestLoop]

theorem parseBRLoop_step (fuel : Nat) (v : List Nat × List Nat) (rest : List Nat)
    (acc : List (List Nat × List Nat)) :
    parseBadRequestLoop (fuel + 1) (ldField 1 (encodeFieldViolation v.1 v.2) ++ rest) acc
      = parseBadRequestLoop fuel rest (acc ++ [v]) := by
  simp only [parseBadRequestLoop]
  rw [if_neg (ldField_append_ne_nil 1 _ rest), readTag_ldField 1 _ rest (by norm_num)]
  simp [readLenDelim_enc, parseFieldViolation_enc]

theorem parseBRLoop_chain (items : List (List Nat × List Nat)) (fuel : Nat) (rest : List Nat)
    (acc : List (List Nat × List Nat)) :
    parseBadRequestLoop (fuel + items.length) (encodeBadRequest items ++ rest) acc
      = parseBadRequestLoop fuel rest (acc ++ items) := by
  induction items generalizing acc with
  | nil => simp [encodeBadRequest]
  | cons v t ih =>
    have e : encodeBadRequest (v :: t)
        = ldField 1 (encodeFieldViolation v.1 v.2) ++ encodeBadRequest t := by
      simp [encodeBadRequest]
    have hf : fuel + (v :: t).length = (fuel + t.length) + 1 := by
      simp only [List.length_cons]
      omega
    rw [e, List.append_assoc, hf, parseBRLoop_step, ih]
    simp

theorem parseBadRequest_enc (items : List (List Nat × List Nat)) :
    parseBadRequest (encodeBadRequest items) = some (ErrorDetail.badRequest items) := by
  rw [parseBadRequest]
  have hlen : items.length ≤ (encodeBadRequest items).length := by
    have := length_le_flatten_length items (fun v => ldField 1 (encodeFieldViolation v.1 v.2))
      (fun v => ldField_length_pos 1 _)
    simpa [encodeBadRequest] using this
  obtain ⟨f0, hf0⟩ : ∃ f0, (encodeBadRequest items).length + 1 = (f0 + 1) + items.length :=
    ⟨(encodeBadRequest items).length - items.length, by omega⟩
  rw [hf0]
  conv_lhs => rw [show encodeBadRequest items = encodeBadRequest items ++ [] from (List.append_nil _).symm]
  rw [parseBRLoop_chain, List.nil_append, parseBRLoop_nil]

theorem parseQFLoop_nil (fuel : Nat) (acc : List (List Nat × List Nat)) :
    parseQuotaFailureLoop (fuel + 1) [] acc = some (ErrorDetail.quotaFailure acc) := by
  simp [parseQuotaFailureLoop]

theorem parseQFLoop_step (fuel : Nat) (v : List Nat × List Nat) (rest : List Nat)
    (acc : List (List Nat × List Nat)) :
    parseQuotaFailureLoop (fuel + 1) (ldField 1 (encodeQuotaViolation v.1 v.2) ++ rest) acc
      = parseQuotaFailureLoop fuel rest (acc ++ [v]) := by
  simp only [parseQuotaFailureLoop]
  rw [if_neg (ldField_append_ne_nil 1 _ rest), readTag_ldField 1 _ rest (by norm_num)]
  simp [readLenDelim_enc, parseQuotaViolation_enc]

theorem parseQFLoop_chain (items : List (List Nat × List Nat)) (fuel : Nat) (rest : List Nat)
    (acc : List (List Nat × List Nat)) :
    parseQuotaFailureLoop (fuel + items.length) (encodeQuotaFailure items ++ rest) acc
      = parseQuotaFailureLoop fuel rest (acc ++ items) := by
  induction items generalizing acc with
  | nil => simp [encodeQuotaFailure]
  | cons v t ih =>
    have e : encodeQuotaFailure (v :: t)
        = ldField 1 (encodeQuotaViolation v.1 v.2) ++ encodeQuotaFailure t := by
      simp [encodeQuotaFailure]
    have hf : fuel + (v :: t).length = (fuel + t.length) + 1 := by
      simp only [List.length_cons]
      omega
    rw [e, List.append_assoc, hf, parseQFLoop_step, ih]
    simp

theorem parseQuotaFailure_enc (items : List (List Nat × List Nat)) :
    parseQuotaFailure (encodeQuotaFailure items) = some (ErrorDetail.quotaFailure items) := by
  rw [parseQuotaFailure]
  have hlen : items.length ≤ (encodeQuotaFailure items).length := by
    have := length_le_flatten_length items (fun v => ldField 1 (encodeQuotaViolation v.1 v.2))
      (fun v => ldField_length_pos 1 _)
    simpa [encodeQuotaFailure] using this
  obtain ⟨f0, hf0⟩ : ∃ f0, (encodeQuotaFailure items).length + 1 = (f0 + 1) + items.length :=
    ⟨(encodeQuotaFailure items).length - items.length, by omega⟩
  rw [hf0]
  conv_lhs => rw [show encodeQuotaFailure items = encodeQuotaFailure items ++ [] from (List.append_nil _).symm]
  rw [parseQFLoop_chain, List.nil_append, parseQFLoop_nil]

theorem parsePFLoop_nil (fuel : Nat) (acc : List (List Nat × List Nat × List Nat)) :
    parsePreconditionFailureLoop (fuel + 1) [] acc = some (ErrorDetail.preconditionFailure acc) := by
  simp [parsePreconditionFailureLoop]

theorem parsePFLoop_step (fuel : Nat) (v : List Nat × List Nat × List Nat) (rest : List Nat)
    (acc : List (List Nat × List Nat × List Nat)) :
    parsePreconditionFailureLoop (fuel + 1) (ldField 1 (encodePreconditionViolation v.1 v.2.1 v.2.2) ++ rest) acc
      = parsePreconditionFailureLoop fuel rest (acc ++ [v]) := by
  simp only [parsePreconditionFailureLoop]
  rw [if_neg (ldField_append_ne_nil 1 _ rest), readTag_ldField 1 _ rest (by norm_num)]
  simp [readLenDelim_enc, parsePreconditionViolation_enc]

theorem parsePFLoop_chain (items : List (List Nat × List Nat × List Nat)) (fuel : Nat) (rest : List Nat)
    (acc : List (List Nat × List Nat × List Nat)) :
    parsePreconditionFailureLoop (fuel + items.length) (encodePreconditionFailure items ++ rest) acc
      = parsePreconditionFailureLoop fuel rest (acc ++ items) := by
  induction items generalizing acc with
  | nil => simp [encodePreconditionFailure]
  | cons v t ih =>
    have e : encodePreconditionFailure (v :: t)
        = ldField 1 (encodePreconditionViolation v.1 v.2.1 v.2.2) ++ encodePreconditionFailure t := by
      simp [encodePreconditionFailure]
    have hf : fuel + (v :: t).length = (fuel + t.length) + 1 := by
      simp only [List.length_cons]
      omega
    rw [e, List.append_assoc, hf, parsePFLoop_step, ih]
    simp

theorem parsePreconditionFailure_enc (items : List (List Nat × List Nat × List Nat)) :
    parsePreconditionFailure (encodePreconditionFailure items) = some (ErrorDetail.preconditionFailure items) := by
  rw [parsePreconditionFailure]
  have hlen : items.length ≤ (encodePreconditionFailure items).length := by
    have := length_le_flatten_length items (fun v => ldField 1 (encodePreconditionViolation v.1 v.2.1 v.2.2))
      (fun v => ldField_length_pos 1 _)
    simpa [encodePreconditionFailure] using this
  obtain ⟨f0, hf0⟩ : ∃ f0, (encodePreconditionFailure items).length + 1 = (f0 + 1) + items.length :=
    ⟨(encodePreconditionFailure items).length - items.length, by omega⟩
  rw [hf0]
  conv_lhs => rw [show encodePreconditionFailure items = encodePreconditionFailure items ++ [] from (List.append_nil _).symm]
  rw [parsePFLoop_chain, List.nil_append, parsePFLoop_nil]

theorem parseHelpLoop_l_nil (fuel : Nat) (acc : List (List Nat × List Nat)) :
    parseHelpLoop (fuel + 1) [] acc = some (ErrorDetail.help acc) := by
  simp [parseHelpLoop]

theorem parseHelpLoop_l_step (fuel : Nat) (v : List Nat × List Nat) (rest : List Nat)
    (acc : List (List Nat × List Nat)) :
    parseHelpLoop (fuel + 1) (ldField 1 (encodeHelpLink v.1 v.2) ++ rest) acc
      = parseHelpLoop fuel rest (acc ++ [v]) := by
  simp only [parseHelpLoop]
  rw [if_neg (ldField_append_ne_nil 1 _ rest), readTag_ldField 1 _ rest (by norm_num)]
  simp [readLenDelim_enc, parseHelpLink_enc]

theorem parseHelpLoop_l_chain (items : List (List Nat × List Nat)) (fuel : Nat) (rest : List Nat)
    (acc : List (List Nat × List Nat)) :
    parseHelpLoop (fuel + items.length) (encodeHelp items ++ rest) acc
      = parseHelpLoop fuel rest (acc ++ items) := by
  induction items generalizing acc with
  | nil => simp [encodeHelp]
  | cons v t ih =>
    have e : encodeHelp (v :: t)
        = ldField 1 (encodeHelpLink v.1 v.2) ++ encodeHelp t := by
      simp [encodeHelp]
    have hf : fuel + (v :: t).length = (fuel + t.length) + 1 := by
      simp only [List.length_cons]
      omega
    rw [e, List.append_assoc, hf, parseHelpLoop_l_step, ih]
    simp

theorem parseHelp_enc (items : List (List Nat × List Nat)) :
    parseHelp (encodeHelp items) = some (ErrorDetail.help items) := by
  rw [parseHelp]
  have hlen : items.length ≤ (encodeHelp items).length := by
    have := length_le_flatten_length items (fun l => ldField 1 (encodeHelpLink l.1 l.2))
      (fun v => ldField_length_pos 1 _)
    simpa [encodeHelp] using this
  obtain ⟨f0, hf0⟩ : ∃ f0, (encodeHelp items).length + 1 = (f0 + 1) + items.length :=
    ⟨(encodeHelp items).length - items.length, by omega⟩
  rw [hf0]
  conv_lhs => rw [show encodeHelp items = encodeHelp items ++ [] from (List.append_nil _).symm]
  rw [parseHelpLoop_l_chain, List.nil_append, parseHelpLoop_l_nil]

theorem parseDILoop_nil (fuel : Nat) (es : List (List Nat)) (d : List Nat) :
    parseDebugInfoLoop (fuel + 1) [] es d = some (.debugInfo es d) := by
  simp [parseDebugInfoLoop]

theorem parseDILoop_step1 (fuel : Nat) (s rest : List Nat) (es : List (List Nat)) (d : List Nat) :
    parseDebugInfoLoop (fuel + 1) (ldField 1 s ++ rest) es d
      = parseDebugInfoLoop fuel rest (es ++ [s]) d := by
  simp only [parseDebugInfoLoop]
  rw [if_neg (ldField_append_ne_nil 1 s rest), readTag_ldField 1 s rest (by norm_num)]
  simp [strOrSkip_ld]

theorem parseDILoop_step2 (fuel : Nat) (s rest : List Nat) (es : List (List Nat)) (d : List Nat) :
    parseDebugInfoLoop (fuel + 1) (ldField 2 s ++ rest) es d
      = parseDebugInfoLoop fuel rest es s := by
  simp only [parseDebugInfoLoop]
  rw [if_neg (ldField_append_ne_nil 2 s rest), readTag_ldField 2 s rest (by norm_num)]
  simp [strOrSkip_ld]

theorem parseDILoop_opt2 (fuel : Nat) (s rest : List Nat) (es : List (List Nat)) :
    parseDebugInfoLoop (fuel + cntNe s) (optLd 2 s ++ rest) es []
      = parseDebugInfoLoop fuel rest es s := by
  by_cases hs : s = []
  · subst hs; simp [cntNe, optLd]
  · simp only [cntNe, optLd, ne_eq, hs, not_false_eq_true, if_true]
    exact parseDILoop_step2 fuel s rest es []

theorem parseDILoop_chain (entries : List (List Nat)) (fuel : Nat) (rest : List Nat)
    (es : List (List Nat)) (d : List Nat) :
    parseDebugInfoLoop (fuel + entries.length)
        ((entries.map (fun entry => ldField 1 entry)).flatten ++ rest) es d
      = parseDebugInfoLoop fuel rest (es ++ entries) d := by
  induction entries generalizing es with
  | nil => simp
  | cons s t ih =>
    simp only [List.map_cons, List.flatten_cons, List.length_cons]
    have hf : fuel + (t.length + 1) = (fuel + t.length) + 1 := by omega
    rw [List.append_assoc, hf, parseDILoop_step1, ih]
    simp

theorem parseDebugInfo_enc (entries : List (List Nat)) (d : List Nat) :
    parseDebugInfo (encodeDebugInfo entries d) = some (.debugInfo entries d) := by
  rw [parseDebugInfo]
  have e : encodeDebugInfo entries d
      = (entries.map (fun entry => ldField 1 entry)).flatten ++ (optLd 2 d ++ []) := by
    rw [List.append_nil]; rfl
  rw [e]
  have hlen : entries.length ≤ ((entries.map (fun entry => ldField 1 entry)).flatten).length :=
    length_le_flatten_length entries _ (fun s => ldField_length_pos 1 s)
  obtain ⟨f0, hf0⟩ : ∃ f0,
      ((entries.map (fun entry => ldField 1 entry)).flatten ++ (optLd 2 d ++ [])).length + 1
      = ((f0 + 1) + cntNe d) + entries.length := by
    refine ⟨((entries.map (fun entry => ldField 1 entry)).flatten ++ (optLd 2 d ++ [])).length
      - entries.length - cntNe d, ?_⟩
    have h2 := cntNe_le_optLd 2 d
    simp only [List.length_append, List.length_nil]
    omega
  rw [hf0, parseDILoop_chain, List.nil_append, parseDILoop_opt2, parseDILoop_nil]

theorem parseEILoop_nil (fuel : Nat) (r d : List Nat) (md : List (List Nat × List Nat)) :
    parseErrorInfoLoop (fuel + 1) [] r d md = some (.errorInfo r d md) := by
  simp [parseErrorInfoLoop]

theorem parseEILoop_step1 (fuel : Nat) (s rest r d : List Nat) (md : List (List Nat × List Nat)) :
    parseErrorInfoLoop (fuel + 1) (ldField 1 s ++ rest) r d md
      = parseErrorInfoLoop fuel rest s d md := by
  simp only [parseErrorInfoLoop]
  rw [if_neg (ldField_append_ne_nil 1 s rest), readTag_ldField 1 s rest (by norm_num)]
  simp [strOrSkip_ld]

theorem parseEILoop_step2 (fuel : Nat) (s rest r d : List Nat) (md : List (List Nat × List Nat)) :
    parseErrorInfoLoop (fuel + 1) (ldField 2 s ++ rest) r d md
      = parseErrorInfoLoop fuel rest r s md := by
  simp only [parseErrorInfoLoop]
  rw [if_neg (ldField_append_ne_nil 2 s rest), readTag_ldField 2 s rest (by norm_num)]
  simp [strOrSkip_ld]

theorem parseEILoop_opt1 (fuel : Nat) (s rest d : List Nat) (md : List (List Nat × List Nat)) :
    parseErrorInfoLoop (fuel + cntNe s) (optLd 1 s ++ rest) [] d md
      = parseErrorInfoLoop fuel rest s d md := by
  by_cases hs : s = []
  · subst hs; simp [cntNe, optLd]
  · simp only [cntNe, optLd, ne_eq, hs, not_false_eq_true, if_true]
    exact parseEILoop_step1 fuel s rest [] d md

theorem parseEILoop_opt2 (fuel : Nat) (s rest r : List Nat) (md : List (List Nat × List Nat)) :
    parseErrorInfoLoop (fuel + cntNe s) (optLd 2 s ++ rest) r [] md
      = parseErrorInfoLoop fuel rest r s md := by
  by_cases hs : s = []
  · subst hs; simp [cntNe, optLd]
  · simp only [cntNe, optLd, ne_eq, hs, not_false_eq_true, if_true]
    exact parseEILoop_step2 fuel s rest r [] md

theorem parseEILoop_step3 (fuel : Nat) (kv : List Nat × List Nat) (rest r d : List Nat)
    (md : List (List Nat × List Nat)) :
    parseErrorInfoLoop (fuel + 1) (ldField 3 (encodeMapEntry kv.1 kv.2) ++ rest) r d md
      = parseErrorInfoLoop fuel rest r d (insertMeta md kv.1 kv.2) := by
  simp only [parseErrorInfoLoop]
  rw [if_neg (ldField_append_ne_nil 3 _ rest), readTag_ldField 3 _ rest (by norm_num)]
  simp [readLenDelim_enc, parseMapEntry_enc]

theorem parseEILoop_chain (items : List (List Nat × List Nat)) (fuel : Nat) (rest r d : List Nat)
    (md : List (List Nat × List Nat)) :
    parseErrorInfoLoop (fuel + items.length)
        ((items.map (fun kv => ldField 3 (encodeMapEntry kv.1 kv.2))).flatten ++ rest) r d md
      = parseErrorInfoLoop fuel rest r d
          (items.foldl (fun m kv => insertMeta m kv.1 kv.2) md) := by
  induction items generalizing md with
  | nil => simp
  | cons kv t ih =>
    simp only [List.map_cons, List.flatten_cons, List.length_cons, List.foldl_cons]
    have hf : fuel + (t.length + 1) = (fuel + t.length) + 1 := by omega
    rw [List.append_assoc, hf, parseEILoop_step3, ih]

theorem insertMeta_not_mem (md : List (List Nat × List Nat)) (k v : List Nat)
    (h : ∀ kv ∈ md, kv.1 ≠ k) : insertMeta md k v = md ++ [(k, v)] := by
  rw [insertMeta, if_neg]
  simp only [List.any_eq_true, decide_eq_true_eq, not_exists, not_and]
  exact h

theorem foldl_insertMeta (items : List (List Nat × List Nat)) (md : List (List Nat × List Nat))
    (hdisj : ∀ kv ∈ md, ∀ kv2 ∈ items, kv.1 ≠ kv2.1)
    (hnd : (items.map Prod.fst).Nodup) :
    items.foldl (fun m kv => insertMeta m kv.1 kv.2) md = md ++ items := by
  induction items generalizing md with
  | nil => simp
  | cons kv t ih =>
    simp only [List.foldl_cons]
    have h1 : insertMeta md kv.1 kv.2 = md ++ [kv] := by
      have := insertMeta_not_mem md kv.1 kv.2
        (fun x hx => hdisj x hx kv (List.mem_cons_self _ _))
      simpa using this
    have hd' : ∀ x ∈ md ++ [kv], ∀ y ∈ t, x.1 ≠ y.1 := by
      intro x hx y hy
      rcases List.mem_append.mp hx with hmd | hsing
      · exact hdisj x hmd y (List.mem_cons_of_mem _ hy)
      · simp only [List.mem_singleton] at hsing
        subst hsing
        simp only [List.map_cons, List.nodup_cons] at hnd
        intro hc
        apply hnd.1
        rw [hc]
        exact List.mem_map_of_mem Prod.fst hy
    have hn' : (t.map Prod.fst).Nodup := by
      simp only [List.map_cons, List.nodup_cons] at hnd
      exact hnd.2
    rw [h1, ih (md ++ [kv]) hd' hn']
    simp

theorem parseErrorInfo_enc (r d : List Nat) (md : List (List Nat × List Nat))
    (hnd : (md.map Prod.fst).Nodup) :
    parseErrorInfo (encodeErrorInfo r d md) = some (.errorInfo r d md) := by
  rw [parseErrorInfo]
  have e : encodeErrorInfo r d md
      = optLd 1 r ++ (optLd 2 d ++
          ((md.map (fun kv => ldField 3 (encodeMapEntry kv.1 kv.2))).flatten ++ [])) := by
    rw [List.append_nil, ← List.append_assoc]; rfl
  rw [e]
  have hlen : md.length ≤ ((md.map (fun kv => ldField 3 (encodeMapEntry kv.1 kv.2))).flatten).length :=
    length_le_flatten_length md _ (fun kv => ldField_length_pos 3 _)
  obtain ⟨f0, hf0⟩ : ∃ f0,
      (optLd 1 r ++ (optLd 2 d ++
        ((md.map (fun kv : List Nat × List Nat => ldField 3 (encodeMapEntry kv.1 kv.2))).flatten
          ++ []))).length + 1
      = (((f0 + 1) + md.length) + cntNe d) + cntNe r := by
    refine ⟨(optLd 1 r ++ (optLd 2 d ++
      ((md.map (fun kv : List Nat × List Nat => ldField 3 (encodeMapEntry kv.1 kv.2))).flatten
        ++ []))).length
      - cntNe r - cntNe d - md.length, ?_⟩
    have h1 := cntNe_le_optLd 1 r
    have h2 := cntNe_le_optLd 2 d
    simp only [List.length_append, List.length_nil]
    omega
  rw [hf0, parseEILoop_opt1, parseEILoop_opt2, parseEILoop_chain, parseEILoop_nil]
  rw [foldl_insertMeta md [] (by simp) hnd]
  simp

theorem toInt64_payload (n : Int) (h1 : 0 ≤ n) (h2 : n < 2 ^ 63) :
    toInt64 (intVarintPayload n) = n := by
  rw [toInt64, intVarintPayload]
  by_cases h : ((n % (2 ^ 64 : Int)).toNat) % 2 ^ 64 < 2 ^ 63
  · rw [if_pos h]; omega
  · rw [if_neg h]; omega

theorem toInt32_payload (c : Int) (h1 : -(2 ^ 31) ≤ c) (h2 : c < 2 ^ 31) :
    toInt32 (intVarintPayload c) = c := by
  rw [toInt32, intVarintPayload]
  by_cases h : ((c % (2 ^ 64 : Int)).toNat) % 2 ^ 32 < 2 ^ 31
  · rw [if_pos h]; omega
  · rw [if_neg h]; omega

theorem parseDurLoop_nil (fuel : Nat) (acc : Int) :
    parseDurationLoop (fuel + 1) [] acc = some acc := by
  simp [parseDurationLoop]

theorem parseDurLoop_step (fuel p : Nat) (rest : List Nat) (acc : Int) :
    parseDurationLoop (fuel + 1) (varintField 1 p ++ rest) acc
      = parseDurationLoop fuel rest (toInt64 p) := by
  simp only [parseDurationLoop]
  rw [if_neg (varintField_append_ne_nil 1 p rest), readTag_varintField 1 p rest (by norm_num)]
  simp [readVarint_enc]

theorem parseDuration_enc (p : Nat) (acc : Int) :
    parseDurationLoop ((varintField 1 p).length + 1) (varintField 1 p) acc
      = some (toInt64 p) := by
  obtain ⟨k, hk⟩ : ∃ k, (varintField 1 p).length + 1 = (k + 1) + 1 := by
    refine ⟨(varintField 1 p).length - 1, ?_⟩
    have := varintField_length_pos 1 p
    omega
  rw [hk]
  conv_lhs => rw [show varintField 1 p = varintField 1 p ++ [] from (List.append_nil _).symm]
  rw [parseDurLoop_step]
  exact parseDurLoop_nil k _

theorem parseRTLoop_nil (fuel : Nat) (n : Int) :
    parseRetryInfoLoop (fuel + 1) [] n = some (.retryInfo n) := by
  simp [parseRetryInfoLoop]

theorem parseRTLoop_step (fuel p : Nat) (rest : List Nat) (acc : Int) :
    parseRetryInfoLoop (fuel + 1) (ldField 1 (varintField 1 p) ++ rest) acc
      = parseRetryInfoLoop fuel rest (toInt64 p) := by
  simp only [parseRetryInfoLoop]
  rw [if_neg (ldField_append_ne_nil 1 _ rest), readTag_ldField 1 _ rest (by norm_num)]
  simp [readLenDelim_enc, parseDuration_enc]

theorem parseRetryInfo_enc (n : Int) (h1 : 0 ≤ n) (h2 : n < 2 ^ 63) :
    parseRetryInfo (encodeRetryInfo n) = some (.retryInfo n) := by
  rw [parseRetryInfo]
  by_cases hn : 0 < n
  · have e : encodeRetryInfo n = ldField 1 (varintField 1 (intVarintPayload n)) ++ [] := by
      rw [List.append_nil, encodeRetryInfo, if_pos hn]
    rw [e]
    obtain ⟨k, hk⟩ : ∃ k,
        (ldField 1 (varintField 1 (intVarintPayload n)) ++ []).length + 1 = (k + 1) + 1 := by
      refine ⟨(ldField 1 (varintField 1 (intVarintPayload n)) ++ []).length - 1, ?_⟩
      have := ldField_length_pos 1 (varintField 1 (intVarintPayload n))
      simp only [List.length_append, List.length_nil]
      omega
    rw [hk, parseRTLoop_step, toInt64_payload n h1 h2, parseRTLoop_nil]
  · have hn0 : n = 0 := by omega
    subst hn0
    have e : encodeRetryInfo 0 = [] := by rw [encodeRetryInfo, if_neg hn]
    rw [e]
    simp [parseRetryInfoLoop]

theorem cntC_le_optCodeBytes (c : Int) : cntC c ≤ (optCodeBytes c).length := by
  by_cases hc : c = 0
  · simp [cntC, optCodeBytes, hc]
  · have := varintField_length_pos 1 (intVarintPayload c)
    simp [cntC, optCodeBytes, hc]
    omega

theorem parseStLoop_nil (fuel : Nat) (c : Int) (m : List Nat) (ds : List AnyM) :
    parseStatusLoop (fuel + 1) [] c m ds = some ⟨c, m, ds⟩ := by
  simp [parseStatusLoop]

theorem parseStLoop_stepCode (fuel n : Nat) (rest : List Nat) (c : Int) (m : List Nat)
    (ds : List AnyM) :
    parseStatusLoop (fuel + 1) (varintField 1 n ++ rest) c m ds
      = parseStatusLoop fuel rest (toInt32 n) m ds := by
  simp only [parseStatusLoop]
  rw [if_neg (varintField_append_ne_nil 1 n rest), readTag_varintField 1 n rest (by norm_num)]
  simp [readVarint_enc]

theorem parseStLoop_optCode (fuel : Nat) (c : Int) (rest : List Nat) (m : List Nat)
    (ds : List AnyM) (h1 : -(2 ^ 31) ≤ c) (h2 : c < 2 ^ 31) :
    parseStatusLoop (fuel + cntC c) (optCodeBytes c ++ rest) 0 m ds
      = parseStatusLoop fuel rest c m ds := by
  by_cases hc : c = 0
  · subst hc; simp [cntC, optCodeBytes]
  · simp only [cntC, optCodeBytes, ne_eq, hc, not_false_eq_true, if_true]
    rw [parseStLoop_stepCode, toInt32_payload c h1 h2]

theorem parseStLoop_step2 (fuel : Nat) (s rest : List Nat) (c : Int) (m : List Nat)
    (ds : List AnyM) :
    parseStatusLoop (fuel + 1) (ldField 2 s ++ rest) c m ds
      = parseStatusLoop fuel rest c s ds := by
  simp only [parseStatusLoop]
  rw [if_neg (ldField_append_ne_nil 2 s rest), readTag_ldField 2 s rest (by norm_num)]
  simp [strOrSkip_ld]

theorem parseStLoop_opt2 (fuel : Nat) (s rest : List Nat) (c : Int) (ds : List AnyM) :
    parseStatusLoop (fuel + cntNe s) (optLd 2 s ++ rest) c [] ds
      = parseStatusLoop fuel rest c s ds := by
  by_cases hs : s = []
  · subst hs; simp [cntNe, optLd]
  · simp only [cntNe, optLd, ne_eq, hs, not_false_eq_true, if_true]
    exact parseStLoop_step2 fuel s rest c [] ds

theorem parseStLoop_stepAny (fuel : Nat) (a : AnyM) (rest : List Nat) (c : Int) (m : List Nat)
    (ds : List AnyM) :
    parseStatusLoop (fuel + 1) (ldField 3 (encodeAny a) ++ rest) c m ds
      = parseStatusLoop fuel rest c m (ds ++ [a]) := by
  simp only [parseStatusLoop]
  rw [if_neg (ldField_append_ne_nil 3 _ rest), readTag_ldField 3 _ rest (by norm_num)]
  simp [readLenDelim_enc, parseAny_enc]

theorem parseStLoop_chain (dets : List AnyM) (fuel : Nat) (rest : List Nat) (c : Int)
    (m : List Nat) (ds : List AnyM) :
    parseStatusLoop (fuel + dets.length)
        ((dets.map (fun d => ldField 3 (encodeAny d))).flatten ++ rest) c m ds
      = parseStatusLoop fuel rest c m (ds ++ dets) := by
  induction dets generalizing ds with
  | nil => simp
  | cons a t ih =>
    simp only [List.map_cons, List.flatten_cons, List.length_cons]
    have hf : fuel + (t.length + 1) = (fuel + t.length) + 1 := by omega
    rw [List.append_assoc, hf, parseStLoop_stepAny, ih]
    simp

theorem parseStatus_enc (s : StatusM) (h1 : -(2 ^ 31) ≤ s.code) (h2 : s.code < 2 ^ 31) :
    parseStatus (encodeStatus s) = some s := by
  obtain ⟨c, m, ds⟩ := s
  rw [parseStatus]
  have e : encodeStatus ⟨c, m, ds⟩
      = optCodeBytes c ++ (optLd 2 m ++
          ((ds.map (fun d => ldField 3 (encodeAny d))).flatten ++ [])) := by
    rw [List.append_nil, ← List.append_assoc]; rfl
  rw [e]
  have hlen : ds.length ≤ ((ds.map (fun d => ldField 3 (encodeAny d))).flatten).length :=
    length_le_flatten_length ds _ (fun d => ldField_length_pos 3 _)
  obtain ⟨f0, hf0⟩ : ∃ f0,
      (optCodeBytes c ++ (optLd 2 m ++
        ((ds.map (fun d : AnyM => ldField 3 (encodeAny d))).flatten ++ []))).length + 1
      = (((f0 + 1) + ds.length) + cntNe m) + cntC c := by
    refine ⟨(optCodeBytes c ++ (optLd 2 m ++
      ((ds.map (fun d : AnyM => ldField 3 (encodeAny d))).flatten ++ []))).length
      - cntC c - cntNe m - ds.length, ?_⟩
    have hc := cntC_le_optCodeBytes c
    have hm := cntNe_le_optLd 2 m
    simp only [List.length_append, List.length_nil]
    omega
  rw [hf0, parseStLoop_optCode _ c _ [] [] h1 h2, parseStLoop_opt2, parseStLoop_chain,
    parseStLoop_nil]
  simp

theorem parseErrorDetail_enc (d : ErrorDetail) (h : wfDetail d) :
    parseErrorDetail (encodeErrorDetail d) = some d := by
  cases d with
  | localizedMessage a b =>
    simp +decide [encodeErrorDetail, parseErrorDetail, parseLocalizedMessage_enc]
  | badRequest fvs =>
    simp +decide [encodeErrorDetail, parseErrorDetail, parseBadRequest_enc]
  | debugInfo es dd =>
    simp +decide [encodeErrorDetail, parseErrorDetail, parseDebugInfo_enc]
  | errorInfo r dm md =>
    simp +decide [encodeErrorDetail, parseErrorDetail, parseErrorInfo_enc r dm md h]
  | retryInfo n =>
    simp +decide [encodeErrorDetail, parseErrorDetail, parseRetryInfo_enc n h.1 h.2]
  | quotaFailure vs =>
    simp +decide [encodeErrorDetail, parseErrorDetail, parseQuotaFailure_enc]
  | preconditionFailure vs =>
    simp +decide [encodeErrorDetail, parseErrorDetail, parsePreconditionFailure_enc]
  | requestInfo a b =>
    simp +decide [encodeErrorDetail, parseErrorDetail, parseRequestInfo_enc]
  | resourceInfo a b c dd =>
    simp +decide [encodeErrorDetail, parseErrorDetail, parseResourceInfo_enc]
  | help links =>
    simp +decide [encodeErrorDetail, parseErrorDetail, parseHelp_enc]
  | unknown u v =>
    simp only [wfDetail, recognizedTypeUrls, List.mem_cons, not_or] at h
    obtain ⟨h1, h2, h3, h4, h5, h6, h7, h8, h9, h10, -⟩ := h
    simp only [encodeErrorDetail, parseErrorDetail]
    rw [if_neg h1, if_neg h2, if_neg h3, if_neg h4, if_neg h5, if_neg h6, if_neg h7,
      if_neg h8, if_neg h9, if_neg h10]

theorem actMsgs_append {I : Type} (xs ys : List (CallerAct I)) :
    actMsgs (xs ++ ys) = actMsgs xs ++ actMsgs ys := by
  induction xs with
  | nil => simp [actMsgs]
  | cons a t ih => cases a <;> simp [actMsgs, ih]

theorem hasComplete_append {I : Type} (xs ys : List (CallerAct I)) :
    hasComplete (xs ++ ys) = (hasComplete xs || hasComplete ys) := by
  induction xs with
  | nil => simp [hasComplete]
  | cons a t ih => cases a <;> simp [hasComplete, ih]

theorem completeCount_append {I : Type} (xs ys : List (CallerAct I)) :
    completeCount (xs ++ ys) = completeCount xs + completeCount ys := by
  induction xs with
  | nil => simp [completeCount]
  | cons a t ih =>
    cases a with
    | send m => simp [completeCount, ih]
    | complete =>
      simp [completeCount, ih]
      omega

theorem foldl_stepAct_unresolved {I : Type} (acts : List (CallerAct I)) (s : ProxyState I)
    (h : s.resolved = false) :
    acts.foldl stepAct s
      = ⟨false, s.pending ++ actMsgs acts, s.sendCompleted || hasComplete acts, s.received⟩ := by
  induction acts generalizing s with
  | nil =>
    obtain ⟨r, p, sc, rc⟩ := s
    simp only at h
    subst h
    simp [actMsgs, hasComplete]
  | cons a t ih =>
    cases a with
    | send m =>
      simp only [List.foldl_cons, stepAct, proxySend, h, Bool.false_eq_true, if_false]
      rw [ih _ (by simp [h])]
      simp [actMsgs, hasComplete, List.append_assoc]
    | complete =>
      simp only [List.foldl_cons, stepAct, proxyComplete, h, Bool.false_eq_true, if_false]
      rw [ih _ (by simp [h])]
      simp [actMsgs, hasComplete]

theorem foldl_stepAct_resolved {I : Type} (acts : List (CallerAct I)) (s : ProxyState I)
    (h : s.resolved = true) :
    acts.foldl stepAct s = { s with received := s.received ++ actEvents acts } := by
  induction acts generalizing s with
  | nil => simp [actEvents]
  | cons a t ih =>
    cases a with
    | send m =>
      simp only [List.foldl_cons, stepAct, proxySend, h, if_true]
      rw [ih _ (by simp [h])]
      simp [actEvents, List.append_assoc]
    | complete =>
      simp only [List.foldl_cons, stepAct, proxyComplete, h, if_true]
      rw [ih _ (by simp [h])]
      simp [actEvents, List.append_assoc]

theorem actEvents_wf {I : Type} (acts : List (CallerAct I))
    (hc : completeCount acts ≤ 1) (hs : noSendAfterComplete acts = true) :
    actEvents acts = (actMsgs acts).map StreamEvent.msg ++
      (if hasComplete acts = true then [StreamEvent.completed] else []) := by
  induction acts with
  | nil => simp [actEvents, actMsgs, hasComplete]
  | cons a t ih =>
    cases a with
    | send m =>
      simp only [actEvents, actMsgs, hasComplete, completeCount, noSendAfterComplete] at *
      rw [ih hc hs]
      simp
    | complete =>
      have ht : t = [] := by
        cases t with
        | nil => rfl
        | cons b u =>
          cases b with
          | send m => simp [noSendAfterComplete] at hs
          | complete =>
            exfalso
            simp [completeCount] at hc
      subst ht
      simp [actEvents, actMsgs, hasComplete]

theorem spreadMergeEntry_fst {V : Type} (upd : List (String × V)) (kv : String × V) :
    (match upd.find? (fun kv2 : String × V => kv2.1 = kv.1) with
      | some kv2 => (kv.1, kv2.2)
      | none => kv).1 = kv.1 := by
  cases upd.find? (fun kv2 : String × V => kv2.1 = kv.1) <;> rfl

theorem lookupVal_spreadMerge {V : Type} (base upd : List (String × V)) (k : String) :
    lookupVal (spreadMerge base upd) k = ((lookupVal upd k).or (lookupVal base k)) := by
  rw [lookupVal, spreadMerge, List.find?_append, List.find?_map]
  have hcomp : ((fun kv : String × V => decide (kv.1 = k)) ∘
      (fun kv => match upd.find? (fun kv2 : String × V => kv2.1 = kv.1) with
        | some kv2 => (kv.1, kv2.2)
        | none => kv)) = (fun kv : String × V => decide (kv.1 = k)) := by
    funext kv
    simp only [Function.comp_apply, spreadMergeEntry_fst upd kv]
  rw [hcomp]
  rcases hbase : base.find? (fun kv : String × V => decide (kv.1 = k)) with _ | kv0
  · have hfilter : (upd.filter
        (fun kv2 => (base.find? (fun kv : String × V => kv.1 = kv2.1)).isNone)).find?
          (fun kv : String × V => decide (kv.1 = k))
        = upd.find? (fun kv : String × V => decide (kv.1 = k)) := by
      rw [List.find?_filter]
      congr 1
      funext a
      by_cases hak : a.1 = k
      · simp [hak, hbase]
      · simp [hak]
    rw [hfilter]
    rcases hupd : upd.find? (fun kv : String × V => decide (kv.1 = k)) with _ | kv2
    · simp [lookupVal, hupd, hbase]
    · simp [lookupVal, hupd, hbase]
  · have hk0 : kv0.1 = k := by
      have := List.find?_some hbase
      simpa using this
    rcases hupd : upd.find? (fun kv : String × V => decide (kv.1 = k)) with _ | kv2
    · simp [lookupVal, hk0, hupd, hbase]
    · simp [lookupVal, hk0, hupd, hbase]

theorem spreadMerge_keys {V : Type} (base upd : List (String × V)) :
    (spreadMerge base upd).map Prod.fst
      = base.map Prod.fst ++
        (upd.filter (fun kv2 => (base.find? (fun kv : String × V => kv.1 = kv2.1)).isNone)).map
          Prod.fst := by
  rw [spreadMerge, List.map_append]
  congr 1
  rw [List.map_map]
  congr 1
  funext kv
  simp only [Function.comp_apply, spreadMergeEntry_fst upd kv]

/-! ## Claim theorems -/
/-- C1 counterexample: a retryInfo record with the non-default delay -5
does not round-trip — the encoder writes the Duration only when the delay
is positive, so the field is omitted and decodes to the zero default. -/
theorem c1_retry_negative_counterexample :
    parseErrorDetail (encodeErrorDetail (ErrorDetail.retryInfo (-5)))
      = some (ErrorDetail.retryInfo 0)
    ∧ parseErrorDetail (encodeErrorDetail (ErrorDetail.retryInfo (-5)))
      ≠ some (ErrorDetail.retryInfo (-5)) := by
  refine ⟨by decide, by decide⟩

/-- C1 (amended): for every error-detail record of one of the recognized
shapes with well-formed fields — unique errorInfo metadata keys, and a
retryInfo delay that is non-negative and int64-representable (a negative
delay is silently dropped by the encoder and decodes to 0) — decoding the
encoding yields the record back; and for every status envelope with an
int32 code, parseStatus of encodeStatus reproduces the code, the message,
and the detail records in their original order. -/
theorem c1_codec_roundtrip :
    (∀ d : ErrorDetail, wfDetail d → parseErrorDetail (encodeErrorDetail d) = some d) ∧
    (∀ s : StatusM, -(2 ^ 31) ≤ s.code → s.code < 2 ^ 31 →
      parseStatus (encodeStatus s) = some s) :=
  ⟨parseErrorDetail_enc, fun s h1 h2 => parseStatus_enc s h1 h2⟩

/-- C1 witness: a concrete errorInfo detail and a concrete status envelope
with a detail round-trip exactly. -/
theorem c1_codec_roundtrip_witness :
    wfDetail (ErrorDetail.errorInfo (ascii "R") (ascii "D") [(ascii "k", ascii "v")]) ∧
    parseErrorDetail (encodeErrorDetail
        (ErrorDetail.errorInfo (ascii "R") (ascii "D") [(ascii "k", ascii "v")]))
      = some (ErrorDetail.errorInfo (ascii "R") (ascii "D") [(ascii "k", ascii "v")]) ∧
    parseStatus (encodeStatus ⟨5, ascii "Not found", [⟨ascii "x.y/Z", [9]⟩]⟩)
      = some ⟨5, ascii "Not found", [⟨ascii "x.y/Z", [9]⟩]⟩ :=
  ⟨by decide,
   c1_codec_roundtrip.1 _ (by decide),
   c1_codec_roundtrip.2 ⟨5, ascii "Not found", [⟨ascii "x.y/Z", [9]⟩]⟩ (by decide) (by decide)⟩

/-- C2: for a clientStreaming or duplex call under the metadata interceptor,
a well-behaved caller action sequence (at most one complete; if complete was
issued before provider resolution no further actions follow it, and after
resolution no send follows a complete) makes the underlying call receive
exactly the sent messages in order, followed by a complete signal exactly
when the caller completed; after resolution the buffer stays empty and
sends pass straight through. -/
theorem c2_stream_buffering_order (I : Type) (pre post : List (CallerAct I))
    (hcount : completeCount (pre ++ post) ≤ 1)
    (hpre : hasComplete pre = true → post = [])
    (hpost : noSendAfterComplete post = true) :
    (runProxy pre post).received
      = (actMsgs (pre ++ post)).map StreamEvent.msg ++
        (if hasComplete (pre ++ post) = true then [StreamEvent.completed] else [])
    ∧ (runProxy pre post).pending = []
    ∧ ∀ (s : ProxyState I) (m : I), s.resolved = true →
        (proxySend s m).received = s.received ++ [StreamEvent.msg m] ∧
        (proxySend s m).pending = s.pending := by
  have hrun : runProxy pre post
      = { resolved := true
          pending := []
          sendCompleted := hasComplete pre
          received :=
            (([] : List (StreamEvent I)) ++ (actMsgs pre).map StreamEvent.msg ++
              (if hasComplete pre = true then [StreamEvent.completed] else [])) ++
            actEvents post } := by
    rw [runProxy, foldl_stepAct_unresolved pre initProxy rfl]
    rw [foldl_stepAct_resolved post _ rfl]
    simp [proxyResolve, initProxy]
  refine ⟨?_, ?_, ?_⟩
  · rw [hrun]
    by_cases hp : hasComplete pre = true
    · have hpost0 := hpre hp
      subst hpost0
      simp [hp, actEvents, hasComplete_append, actMsgs_append, actMsgs, hasComplete]
    · have hcpost : completeCount post ≤ 1 := by
        rw [completeCount_append] at hcount
        omega
      rw [actEvents_wf post hcpost hpost]
      simp only [actMsgs_append, hasComplete_append, hp, List.map_append, List.nil_append,
        Bool.false_eq_true, if_false, List.append_nil, Bool.false_or, List.append_assoc]
  · rw [hrun]
  · intro s m hs
    simp [proxySend, hs]

/-- C2 witness: two messages buffered before resolution, one sent after,
then complete, arrive in order with the completion last. -/
theorem c2_stream_buffering_order_witness :
    (runProxy [CallerAct.send 1, CallerAct.send 2]
        [CallerAct.send 3, CallerAct.complete]).received
      = [StreamEvent.msg 1, StreamEvent.msg 2, StreamEvent.msg 3,
         StreamEvent.completed] := by
  have h := c2_stream_buffering_order Nat [CallerAct.send 1, CallerAct.send 2]
    [CallerAct.send 3, CallerAct.complete] (by decide) (by decide) (by decide)
  rw [h.1]
  decide

/-- C3 counterexample: for a concrete failing clientStreaming call the
headers channel and the response channel reject with different error
instances (the error interceptor calls mapRpcError separately in each
channel's catch), refuting same-instance rejection for all four shapes. -/
theorem c3_single_instance_counterexample :
    (errorInterceptClientStreamingRejections 0 ⟨"NOT_FOUND", []⟩ false).1.1
      ≠ (errorInterceptClientStreamingRejections 0 ⟨"NOT_FOUND", []⟩ false).1.2.1 := by
  decide

/-- C3 (amended): for unary calls the same typed error instance appears on
headers, response, status and trailers; for clientStreaming and duplex
calls each channel rejects with a freshly constructed instance (distinct
identities n, n+1, n+2, n+3) whose kind, message, details and cause agree
across channels; for serverStreaming the headers, status and trailers
channels forward the original wire error unmapped and only the
message-stream error channel carries a mapped typed error. -/
theorem c3_rejection_instances (n : Nat) (e : RpcErrorM) (ab : Bool) :
    ((errorInterceptUnaryRejections n e ab).1.1
        = (errorInterceptUnaryRejections n e ab).1.2.1
      ∧ (errorInterceptUnaryRejections n e ab).1.1
        = (errorInterceptUnaryRejections n e ab).1.2.2.1
      ∧ (errorInterceptUnaryRejections n e ab).1.1
        = (errorInterceptUnaryRejections n e ab).1.2.2.2)
    ∧ ((errorInterceptClientStreamingRejections n e ab).1.1.allocId = n
      ∧ (errorInterceptClientStreamingRejections n e ab).1.2.1.allocId = n + 1
      ∧ (errorInterceptClientStreamingRejections n e ab).1.2.2.1.allocId = n + 2
      ∧ (errorInterceptClientStreamingRejections n e ab).1.2.2.2.allocId = n + 3)
    ∧ (contentOf (errorInterceptClientStreamingRejections n e ab).1.1
        = contentOf (errorInterceptClientStreamingRejections n e ab).1.2.1
      ∧ contentOf (errorInterceptClientStreamingRejections n e ab).1.1
        = contentOf (errorInterceptClientStreamingRejections n e ab).1.2.2.1
      ∧ contentOf (errorInterceptClientStreamingRejections n e ab).1.1
        = contentOf (errorInterceptClientStreamingRejections n e ab).1.2.2.2)
    ∧ ((errorInterceptDuplexRejections n e ab).1.1.allocId = n
      ∧ (errorInterceptDuplexRejections n e ab).1.2.1.allocId = n + 1
      ∧ (errorInterceptDuplexRejections n e ab).1.2.2.1.allocId = n + 2
      ∧ (errorInterceptDuplexRejections n e ab).1.2.2.2.allocId = n + 3)
    ∧ (contentOf (errorInterceptDuplexRejections n e ab).1.1
        = contentOf (errorInterceptDuplexRejections n e ab).1.2.1
      ∧ contentOf (errorInterceptDuplexRejections n e ab).1.1
        = contentOf (errorInterceptDuplexRejections n e ab).1.2.2.1
      ∧ contentOf (errorInterceptDuplexRejections n e ab).1.1
        = contentOf (errorInterceptDuplexRejections n e ab).1.2.2.2)
    ∧ ((errorInterceptServerStreamingRejections n e ab).1.1 = RejectionValue.wire e
      ∧ (errorInterceptServerStreamingRejections n e ab).1.2.2.1 = RejectionValue.wire e
      ∧ (errorInterceptServerStreamingRejections n e ab).1.2.2.2 = RejectionValue.wire e
      ∧ (errorInterceptServerStreamingRejections n e ab).1.2.1
          = RejectionValue.mapped (mapRpcError n e ab).1) := by
  refine ⟨⟨rfl, rfl, rfl⟩, ⟨?_, ?_, ?_, ?_⟩, ⟨?_, ?_, ?_⟩, ⟨?_, ?_, ?_, ?_⟩,
    ⟨?_, ?_, ?_⟩, ⟨rfl, rfl, rfl, rfl⟩⟩
  all_goals cases ab <;> rfl

/-- C4: the metadata interceptor's own code at a rejecting provider: the
unary call's four channels all reject with the provider's reason (promise
chaining), but the clientStreaming call's four deferreds are never settled
because no rejection handler is attached — the claimed all-channel
rejection does not happen for streaming shapes. -/
theorem c4_provider_rejection_eval :
    metadataInterceptUnary (Except.error "boom") ([] : List (String × String))
        (fun _ => ⟨.settled, .settled, .settled, .settled⟩)
      = ⟨.rejected "boom", .rejected "boom", .rejected "boom", .rejected "boom"⟩
    ∧ metadataInterceptClientStreaming (Except.error "boom") ([] : List (String × String))
        (fun _ => ⟨.settled, .settled, .settled, .settled⟩)
      = ⟨.pending, .pending, .pending, .pending⟩ :=
  ⟨rfl, rfl⟩

/-- C5: with the abort signal inactive, the error-mapping interceptor maps
each wire status code to its claimed kind, any unlisted code to unknown,
and the produced error carries the fixed message of its kind (NOT_FOUND in
particular gives message Not found). -/
theorem c5_code_to_kind_mapping (e : RpcErrorM) (n : Nat) :
    ((e.code = "CANCELLED" ∨ e.code = "ABORTED") →
      (mapRpcError n e false).1.kind = ErrKind.aborted)
    ∧ (e.code = "UNAUTHENTICATED" →
      (mapRpcError n e false).1.kind = ErrKind.unauthenticated)
    ∧ (e.code = "UNAVAILABLE" → (mapRpcError n e false).1.kind = ErrKind.unavailable)
    ∧ (e.code = "ALREADY_EXISTS" → (mapRpcError n e false).1.kind = ErrKind.alreadyExists)
    ∧ (e.code = "NOT_FOUND" → (mapRpcError n e false).1.kind = ErrKind.notFound)
    ∧ ((e.code = "INVALID_ARGUMENT" ∨ e.code = "FAILED_PRECONDITION") →
      (mapRpcError n e false).1.kind = ErrKind.validation)
    ∧ (e.code = "DEADLINE_EXCEEDED" →
      (mapRpcError n e false).1.kind = ErrKind.deadlineExceeded)
    ∧ (e.code = "PERMISSION_DENIED" →
      (mapRpcError n e false).1.kind = ErrKind.permissionDenied)
    ∧ (e.code ∉ ["CANCELLED", "ABORTED", "UNAUTHENTICATED", "UNAVAILABLE",
        "ALREADY_EXISTS", "NOT_FOUND", "INVALID_ARGUMENT", "FAILED_PRECONDITION",
        "DEADLINE_EXCEEDED", "PERMISSION_DENIED"] →
      (mapRpcError n e false).1.kind = ErrKind.unknownError)
    ∧ (mapRpcError n e false).1.message = kindMessage (mapRpcError n e false).1.kind
    ∧ ((mapRpcError n e false).1.kind = ErrKind.notFound →
      (mapRpcError n e false).1.message = "Not found") := by
  refine ⟨?_, ?_, ?_, ?_, ?_, ?_, ?_, ?_, ?_, rfl, ?_⟩
  · rintro (h | h) <;> simp [mapRpcError, mkGrpcError, h]
  · intro h; simp [mapRpcError, mkGrpcError, h]
  · intro h; simp [mapRpcError, mkGrpcError, h]
  · intro h; simp [mapRpcError, mkGrpcError, h]
  · intro h; simp [mapRpcError, mkGrpcError, h]
  · rintro (h | h) <;> simp [mapRpcError, mkGrpcError, h]
  · intro h; simp [mapRpcError, mkGrpcError, h]
  · intro h; simp [mapRpcError, mkGrpcError, h]
  · intro h
    simp only [List.mem_cons, not_or] at h
    obtain ⟨h1, h2, h3, h4, h5, h6, h7, h8, h9, h10, -⟩ := h
    simp [mapRpcError, mkGrpcError, h1, h2, h3, h4, h5, h6, h7, h8, h9, h10]
  · intro h
    have hm : (mapRpcError n e false).1.message
        = kindMessage (mapRpcError n e false).1.kind := rfl
    rw [hm, h]
    rfl

/-- C5 witness: NOT_FOUND maps to the notFound kind with message Not found,
and an unlisted code maps to unknown. -/
theorem c5_code_to_kind_mapping_witness :
    (mapRpcError 0 ⟨"NOT_FOUND", []⟩ false).1.kind = ErrKind.notFound
    ∧ (mapRpcError 0 ⟨"NOT_FOUND", []⟩ false).1.message = "Not found"
    ∧ (mapRpcError 0 ⟨"INTERNAL", []⟩ false).1.kind = ErrKind.unknownError := by
  have h := c5_code_to_kind_mapping ⟨"NOT_FOUND", []⟩ 0
  have h2 := c5_code_to_kind_mapping ⟨"INTERNAL", []⟩ 0
  obtain ⟨-, -, -, -, h5, -, -, -, -, -, h11⟩ := h
  obtain ⟨-, -, -, -, -, -, -, -, h9, -, -⟩ := h2
  exact ⟨h5 rfl, h11 (h5 rfl), h9 (by decide)⟩

/-- C6: when the abort signal is already active at failure time, the mapped
error's kind is aborted regardless of the wire status code. -/
theorem c6_abort_forces_aborted (n : Nat) (e : RpcErrorM) :
    (mapRpcError n e true).1.kind = ErrKind.aborted :=
  rfl

/-- C7: an Any record whose type URL is not among the ten recognized URLs
decodes (without failing) to the unknown shape carrying the original type
URL and bytes, and encoding an unknown detail passes both through
unchanged, so unknown details round-trip. -/
theorem c7_unknown_detail_passthrough (u v : List Nat) (h : ¬ u ∈ recognizedTypeUrls) :
    parseErrorDetail ⟨u, v⟩ = some (ErrorDetail.unknown u v)
    ∧ encodeErrorDetail (ErrorDetail.unknown u v) = ⟨u, v⟩ := by
  constructor
  · simp only [recognizedTypeUrls, List.mem_cons, not_or] at h
    obtain ⟨h1, h2, h3, h4, h5, h6, h7, h8, h9, h10, -⟩ := h
    simp only [parseErrorDetail]
    rw [if_neg h1, if_neg h2, if_neg h3, if_neg h4, if_neg h5, if_neg h6, if_neg h7,
      if_neg h8, if_neg h9, if_neg h10]
  · rfl

/-- C7 witness: the unrecognized URL x.y/Z round-trips as an unknown detail. -/
theorem c7_unknown_detail_passthrough_witness :
    parseErrorDetail ⟨ascii "x.y/Z", [1, 2, 3]⟩
      = some (ErrorDetail.unknown (ascii "x.y/Z") [1, 2, 3])
    ∧ encodeErrorDetail (ErrorDetail.unknown (ascii "x.y/Z") [1, 2, 3])
      = ⟨ascii "x.y/Z", [1, 2, 3]⟩ :=
  c7_unknown_detail_passthrough (ascii "x.y/Z") [1, 2, 3] (by decide)

/-- C8: parseRichErrorDetails yields the empty detail list when the
status-details header is absent, and likewise (instead of propagating the
exception, which the total model absorbs into none) when base64 decoding or
status decoding of the header value fails. -/
theorem c8_decode_failure_absorbed (meta : List (String × String)) :
    (lookupMeta meta "grpc-status-details-bin" = none → parseRichErrorDetails meta = [])
    ∧ (∀ s, lookupMeta meta "grpc-status-details-bin" = some s →
        (decodeBase64 s = none ∨
          (∃ bin, decodeBase64 s = some bin ∧ decodeGrpcStatus bin = none)) →
        parseRichErrorDetails meta = []) := by
  constructor
  · intro h
    simp [parseRichErrorDetails, h]
  · intro s hs hfail
    rcases hfail with hb | ⟨bin, hbin, hst⟩
    · simp [parseRichErrorDetails, hs, hb]
    · simp [parseRichErrorDetails, hs, hbin, hst]

/-- C8 witness: an absent header and a header whose bytes are a truncated
varint both produce the empty detail list. -/
theorem c8_decode_failure_absorbed_witness :
    parseRichErrorDetails [] = []
    ∧ parseRichErrorDetails [("grpc-status-details-bin", "gA==")] = []
    ∧ parseRichErrorDetails [("grpc-status-details-bin", "!!!!")] = [] := by
  refine ⟨(c8_decode_failure_absorbed []).1 (by decide), ?_, ?_⟩
  · exact (c8_decode_failure_absorbed [("grpc-status-details-bin", "gA==")]).2 "gA=="
      (by decide) (Or.inr ⟨[128], by decide, by decide⟩)
  · exact (c8_decode_failure_absorbed [("grpc-status-details-bin", "!!!!")]).2 "!!!!"
      (by decide) (Or.inl (by decide))

/-- C9: the metadata passed to the delegated call is the object-spread merge
of caller metadata with resolved metadata: a key present in the resolved
set takes the resolved value, a key absent from it keeps the caller value,
and the key sequence is exactly the caller keys followed by the new
resolved keys. -/
theorem c9_metadata_merge (V : Type) (callerMeta resolved : List (String × V)) (k : String) :
    ((∃ v, lookupVal resolved k = some v) →
      lookupVal (spreadMerge callerMeta resolved) k = lookupVal resolved k)
    ∧ (lookupVal resolved k = none →
      lookupVal (spreadMerge callerMeta resolved) k = lookupVal callerMeta k)
    ∧ (spreadMerge callerMeta resolved).map Prod.fst
      = callerMeta.map Prod.fst ++
        (resolved.filter
          (fun kv2 => (callerMeta.find? (fun kv : String × V => kv.1 = kv2.1)).isNone)).map
          Prod.fst
    ∧ ∀ (R : Type) (next : List (String × V) → CallChannels R),
        metadataInterceptUnary (Except.ok resolved) callerMeta next
          = next (spreadMerge callerMeta resolved) := by
  refine ⟨?_, ?_, spreadMerge_keys callerMeta resolved, fun R next => rfl⟩
  · rintro ⟨v, hv⟩
    rw [lookupVal_spreadMerge, hv]
    rfl
  · intro hv
    rw [lookupVal_spreadMerge, hv]
    rfl

/-- C9 witness: resolved a=1 against caller b=2 yields exactly b=2, a=1. -/
theorem c9_metadata_merge_witness :
    lookupVal (spreadMerge [("b", "2")] [("a", "1")]) "a" = some "1"
    ∧ lookupVal (spreadMerge [("b", "2")] [("a", "1")]) "b" = some "2"
    ∧ spreadMerge [("b", "2")] [("a", "1")] = [("b", "2"), ("a", "1")] := by
  have ha := c9_metadata_merge String [("b", "2")] [("a", "1")] "a"
  have hb := c9_metadata_merge String [("b", "2")] [("a", "1")] "b"
  refine ⟨?_, ?_, by decide⟩
  · rw [ha.1 ⟨"1", by decide⟩]
    decide
  · rw [hb.2.1 (by decide)]
    decide

/-- C10: on the active-abort path the error interceptor constructs the
aborted error with no options at all: empty details and no cause for every
wire error, even one whose metadata carries a decodable status-details
header (witnessed concretely: the same header decodes to a non-empty detail
list on the non-aborted path). -/
theorem c10_abort_path_skips_details (n : Nat) (e : RpcErrorM) :
    (mapRpcError n e true).1.details = []
    ∧ (mapRpcError n e true).1.cause = none
    ∧ parseRichErrorDetails [("grpc-status-details-bin", "GgA=")] ≠ []
    ∧ (mapRpcError 0 ⟨"NOT_FOUND", [("grpc-status-details-bin", "GgA=")]⟩ true).1.details
        = [] := by
  refine ⟨rfl, rfl, ?_, rfl⟩
  decide
